import Mathlib

/-!
Verification of the Orders-tracker backend core (order pricing, listing,
lot association, cashflow reporting) against its natural-language
specification.

The Python services in src/backend/app are shallowly embedded:

* the relational store is a `Store` of lists of rows (one list per table,
  list position standing for the store's natural retrieval order);
* money and quantities are exact rationals (the spec fixes decimal,
  2-decimal-place semantics for money, so `Rat` is the sanctioned
  idealization of Python floats);
* Python `date` values are `PyDate` triples, `date.fromisoformat` is
  `fromisoformat` (strict YYYY-MM-DD), Python `round(x, 2)` is `round2`
  (round half to even, as in Python);
* each service function runs one transaction: it either returns the new
  store (commit) or a `DomainError` (the raised ValueError, which rolls
  the whole transaction back, leaving the store untouched);
* SQL ORDER BY is modelled by a stable insertion sort over the column
  values picked by the allow-listed sort fields.
-/

/-- Round a rational to the nearest integer, halves to even (Python round). -/
def roundHalfEven (q : Rat) : Int :=
  let f : Int := ⌊q⌋
  let frac : Rat := q - f
  if frac < 1/2 then f
  else if 1/2 < frac then f + 1
  else if f % 2 = 0 then f else f + 1

/-- Python round(x, 2): two-decimal rounding used for all displayed totals. -/
def round2 (q : Rat) : Rat := (roundHalfEven (q * 100) : Rat) / 100

/-- A Python datetime.date. -/
structure PyDate where
  year : Nat
  month : Nat
  day : Nat
deriving DecidableEq

/-- Numeric key giving the calendar order of dates (month ≤ 12, day ≤ 31,
so lexicographic order on (year, month, day) agrees with this key). -/
def PyDate.key (d : PyDate) : Nat := d.year * 10000 + d.month * 100 + d.day

def leapYear (y : Nat) : Bool := (y % 4 == 0 && y % 100 != 0) || (y % 400 == 0)

def daysInMonth (y m : Nat) : Nat :=
  if m == 2 then (if leapYear y then 29 else 28)
  else if m == 4 || m == 6 || m == 9 || m == 11 then 30
  else 31

def charDigit (c : Char) : Nat := c.toNat - 48

/-- Python date.fromisoformat on its strict YYYY-MM-DD core: digits in the
right positions and a calendar-valid (year, month, day), else failure. -/
def fromisoformat (s : String) : Option PyDate :=
  match s.data with
  | [y1, y2, y3, y4, h1, m1, m2, h2, d1, d2] =>
    if h1 == '-' && h2 == '-' && [y1, y2, y3, y4, m1, m2, d1, d2].all Char.isDigit then
      let y := charDigit y1 * 1000 + charDigit y2 * 100 + charDigit y3 * 10 + charDigit y4
      let m := charDigit m1 * 10 + charDigit m2
      let d := charDigit d1 * 10 + charDigit d2
      if 1 ≤ y && 1 ≤ m && m ≤ 12 && 1 ≤ d && d ≤ daysInMonth y m then
        some ⟨y, m, d⟩
      else none
    else none
  | _ => none

def digitsVal (l : List Char) : Option Nat :=
  if l.isEmpty || !(l.all Char.isDigit) then none
  else some (l.foldl (fun acc c => acc * 10 + charDigit c) 0)

/-- Python int(str): an optional sign followed by decimal digits. -/
def pyInt (s : String) : Option Int :=
  match s.data with
  | '-' :: rest => (digitsVal rest).map (fun n => -(n : Int))
  | '+' :: rest => (digitsVal rest).map (fun n => (n : Int))
  | l => (digitsVal l).map (fun n => (n : Int))

def lowerData (s : String) : List Char := s.data.map Char.toLower

def startsWithL : List Char → List Char → Bool
  | _, [] => true
  | [], _ :: _ => false
  | h :: hs, n :: ns => h == n && startsWithL hs ns

def occursIn (hay needle : List Char) : Bool :=
  match hay with
  | [] => needle.isEmpty
  | _ :: rest => startsWithL hay needle || occursIn rest needle

/-- SQL ILIKE with a %value% pattern: case-insensitive substring match. -/
def ilike (value col : String) : Bool := occursIn (lowerData col) (lowerData value)

/-- Stable insertion of x into a list ordered by the reflexive total test le. -/
def insertLe (le : α → α → Bool) (x : α) : List α → List α
  | [] => [x]
  | y :: ys => if le x y then x :: y :: ys else y :: insertLe le x ys

/-- Stable sort modelling SQL ORDER BY. -/
def sortByLe (le : α → α → Bool) : List α → List α
  | [] => []
  | x :: xs => insertLe le x (sortByLe le xs)

/-- Next autoincrement primary key: one past the largest id ever used. -/
def nextId (ids : List Nat) : Nat := ids.foldr (fun a b => max a b) 0 + 1

/-- A value of an SQL column, as used by filtering and ORDER BY. -/
inductive SqlVal
  | null
  | int (i : Int)
  | rat (q : Rat)
  | dat (d : PyDate)
  | str (s : String)
deriving DecidableEq

def SqlVal.tag : SqlVal → Nat
  | null => 0
  | int _ => 1
  | rat _ => 2
  | dat _ => 3
  | str _ => 4

def charListLt : List Char → List Char → Bool
  | [], [] => false
  | [], _ :: _ => true
  | _ :: _, [] => false
  | a :: as, b :: bs => decide (a.toNat < b.toNat) || (a == b && charListLt as bs)

/-- Strict comparison of column values (same-kind comparisons are the ones
SQL actually performs here; unlike kinds are ranked by tag so that the
comparator stays total). -/
def SqlVal.ltB : SqlVal → SqlVal → Bool
  | int a, int b => decide (a < b)
  | rat a, rat b => decide (a < b)
  | dat a, dat b => decide (a.key < b.key)
  | str a, str b => charListLt a.data b.data
  | a, b => decide (a.tag < b.tag)

def natPad (width n : Nat) : List Char :=
  let ds := (Nat.toDigits 10 n)
  (List.replicate (width - ds.length) '0') ++ ds

/-- SQL rendering of a column value, for ILIKE against non-text columns. -/
def SqlVal.render : SqlVal → String
  | null => ""
  | int i => toString i
  | rat q => toString q
  | dat d => ⟨natPad 4 d.year ++ '-' :: natPad 2 d.month ++ '-' :: natPad 2 d.day⟩
  | str s => s

-- ---------------------------------------------------------------------------
-- Data model (src/backend/app/db/orm)
-- ---------------------------------------------------------------------------

structure Customer where
  id : Nat
  name : String
deriving DecidableEq

structure Product where
  id : Nat
  name : String
  unit : String
  unit_price : Rat
deriving DecidableEq

structure OrderRow where
  id : Nat
  customer_id : Nat
  delivery_date : PyDate
  created_at : Int
  applied_discount : Rat
  status : String
deriving DecidableEq

structure OrderItemRow where
  id : Nat
  order_id : Nat
  product_id : Nat
  quantity : Rat
  unit_price : Rat
  lot_id : Option Nat
deriving DecidableEq

structure LotRow where
  id : Nat
  lot_date : PyDate
  name : String
  location : String
  description : Option String
deriving DecidableEq

structure ExpenseRow where
  id : Nat
  category_id : Nat
  timestamp : PyDate
  amount : Rat
  note : Option String
deriving DecidableEq

structure IncomeRow where
  id : Nat
  category_id : Nat
  timestamp : PyDate
  amount : Rat
  note : Option String
deriving DecidableEq

/-- The relational store: one list of rows per table, in natural order. -/
structure Store where
  customers : List Customer
  products : List Product
  orders : List OrderRow
  order_items : List OrderItemRow
  lots : List LotRow
  expenses : List ExpenseRow
  incomes : List IncomeRow
deriving DecidableEq

/-- Store invariants enforced by the schema: primary keys are unique, the
(order_id, product_id) pair of an order item is unique, and order items
reference existing orders. -/
def Store.WF (db : Store) : Prop :=
  (db.customers.map (·.id)).Nodup ∧
  (db.products.map (·.id)).Nodup ∧
  (db.orders.map (·.id)).Nodup ∧
  (db.order_items.map (·.id)).Nodup ∧
  (db.order_items.map (fun it => (it.order_id, it.product_id))).Nodup ∧
  (∀ it ∈ db.order_items, it.order_id ∈ db.orders.map (·.id))

instance (db : Store) : Decidable db.WF := by
  unfold Store.WF; infer_instance

/-- The ValueError exceptions raised by the services; raising one aborts
and rolls back the enclosing transaction. -/
inductive DomainError
  | customerNotFound (id : Nat)
  | productNotFound (id : Nat)
  | orderNotFound (id : Nat)
  | orderItemsNotFound (missing : List Nat)
deriving DecidableEq

/-- Pagination envelope model. -/
structure PaginationT (α : Type) where
  total : Nat
  items : List α
deriving DecidableEq

-- ---------------------------------------------------------------------------
-- Orders service (src/backend/app/api/v1/orders/service.py)
-- ---------------------------------------------------------------------------

/-- Listing query params; filter values arrive as strings from the query
layer (a filter whose value is None is skipped by the code, which is
modelled by omitting the pair). -/
structure SortParam where
  field : String
  order : String
deriving DecidableEq

structure ListingQueryParams where
  page : Int
  size : Int
  filters : List (String × String)
  sort : List SortParam
deriving DecidableEq

/-- orders/constants.py ALLOWED_SORTING_FIELDS, as the key set. -/
def ALLOWED_SORTING_FIELDS : List String :=
  ["id", "delivery_date", "customer_id", "created_at", "customer_name",
   "delivery_date_after", "delivery_date_before", "status"]

/-- Pydantic output model for one order line. -/
structure OrderItemOut where
  id : Nat
  product_id : Nat
  product_name : String
  unit : String
  quantity : Rat
  unit_price : Rat
deriving DecidableEq

/-- Pydantic output model for an order. -/
structure OrderOut where
  id : Nat
  customer_id : Nat
  delivery_date : PyDate
  created_at : Int
  total_amount : Rat
  applied_discount : Rat
  status : String
  items : List OrderItemOut
  customer_name : Option String
deriving DecidableEq

/-- The base statement of list_orders / get_order_by_id: orders inner-joined
to their customer's name. -/
def ordersJoinCustomer (db : Store) : List (OrderRow × String) :=
  db.orders.filterMap (fun o =>
    (db.customers.find? (fun c => c.id == o.customer_id)).map (fun c => (o, c.name)))

/-- The column the allow-list maps an orders filter or sort field to,
evaluated on a joined row. -/
def ordersSortVal (field : String) (r : OrderRow × String) : SqlVal :=
  if field == "id" then .int r.1.id
  else if field == "delivery_date" || field == "delivery_date_after"
       || field == "delivery_date_before" then .dat r.1.delivery_date
  else if field == "customer_id" then .int r.1.customer_id
  else if field == "created_at" then .int r.1.created_at
  else if field == "customer_name" then .str r.2
  else if field == "status" then .str r.1.status
  else .null

/-- One filter of list_orders: unknown fields are skipped; id-valued fields
parse the value as int, forcing col == -1 on failure; the two delivery-date
range fields parse the value as a date, forcing col == date(1900, 1, 1) on
failure; every other allowed field does a case-insensitive substring match. -/
def ordersFilterKeep (r : OrderRow × String) (fv : String × String) : Bool :=
  let field := fv.1
  let value := fv.2
  if !(ALLOWED_SORTING_FIELDS.contains field) then true
  else if field == "id" then
    match pyInt value with
    | some i => decide ((r.1.id : Int) = i)
    | none => decide ((r.1.id : Int) = -1)
  else if field == "customer_id" then
    match pyInt value with
    | some i => decide ((r.1.customer_id : Int) = i)
    | none => decide ((r.1.customer_id : Int) = -1)
  else if field == "delivery_date_after" then
    match fromisoformat value with
    | some d => decide (d.key ≤ r.1.delivery_date.key)
    | none => r.1.delivery_date == ⟨1900, 1, 1⟩
  else if field == "delivery_date_before" then
    match fromisoformat value with
    | some d => decide (r.1.delivery_date.key ≤ d.key)
    | none => r.1.delivery_date == ⟨1900, 1, 1⟩
  else
    ilike value (SqlVal.render (ordersSortVal field r))

/-- The filtered (not yet paginated) predicate set of list_orders; its
length is what the COUNT statement returns. -/
def ordersFiltered (db : Store) (filters : List (String × String)) :
    List (OrderRow × String) :=
  (ordersJoinCustomer db).filter (fun r => filters.all (ordersFilterKeep r))

/-- Sort clauses of list_orders: allowed fields only, order lowered and
compared to desc. -/
def ordersSortClauses (sort : List SortParam) : List (String × Bool) :=
  sort.filterMap (fun s =>
    if ALLOWED_SORTING_FIELDS.contains s.field then
      some (s.field, lowerData s.order == "desc".data)
    else none)

/-- Lexicographic ORDER BY comparator over the mapped columns. -/
def clausesLe (val : String → α → SqlVal) (clauses : List (String × Bool)) (a b : α) :
    Bool :=
  match clauses with
  | [] => true
  | (f, isDesc) :: rest =>
    if val f a = val f b then clausesLe val rest a b
    else if isDesc then SqlVal.ltB (val f b) (val f a)
    else SqlVal.ltB (val f a) (val f b)

def mkItemOut (x : OrderItemRow × Product) : OrderItemOut :=
  { id := x.1.id, product_id := x.1.product_id, product_name := x.2.name,
    unit := x.2.unit, quantity := x.1.quantity, unit_price := x.1.unit_price }

/-- The items statement of list_orders: order items of the page's orders,
inner-joined to their product. -/
def itemsFetch (db : Store) (ids : List Nat) : List (OrderItemRow × Product) :=
  db.order_items.filterMap (fun it =>
    if ids.contains it.order_id then
      (db.products.find? (fun p => p.id == it.product_id)).map (fun p => (it, p))
    else none)

/-- Decorate a joined order row with its items; total_amount is derived as
round(subtotal * (1 - applied_discount / 100), 2). The column is
non-nullable with default 0, so the source's (applied_discount or 0)
equals applied_discount. -/
def buildOrderOut (r : OrderRow × String) (its : List OrderItemOut) : OrderOut :=
  let subtotal := (its.map (fun it => it.quantity * it.unit_price)).sum
  { id := r.1.id, customer_id := r.1.customer_id, delivery_date := r.1.delivery_date,
    created_at := r.1.created_at, applied_discount := r.1.applied_discount,
    status := r.1.status, customer_name := some r.2, items := its,
    total_amount := round2 (subtotal * (1 - r.1.applied_discount / 100)) }

/-- The rows of the requested page: the filtered set, sorted when sort
clauses are present, then offset/limited — but only when size >= 0. -/
def pagedOrders (db : Store) (params : ListingQueryParams) : List (OrderRow × String) :=
  let page : Int := max 1 params.page
  let size : Int := params.size
  let offset : Int := (page - 1) * size
  let filtered := ordersFiltered db params.filters
  let clauses := ordersSortClauses params.sort
  let sorted := if clauses.isEmpty then filtered
                else sortByLe (clausesLe ordersSortVal clauses) filtered
  if 0 ≤ size then (sorted.drop offset.toNat).take size.toNat else sorted

/-- list_orders: filter, count, sort, paginate (only when size >= 0), then
attach items and compute each order's total. -/
def list_orders (db : Store) (params : ListingQueryParams) : PaginationT OrderOut :=
  let total := (ordersFiltered db params.filters).length
  let paged := pagedOrders db params
  if paged.isEmpty then { total := total, items := [] }
  else
    let fetched := itemsFetch db (paged.map (fun r => r.1.id))
    { total := total,
      items := paged.map (fun r =>
        buildOrderOut r ((fetched.filter (fun x => x.1.order_id == r.1.id)).map mkItemOut)) }

/-- The items statement of get_order_by_id: the order's items inner-joined
to their product. -/
def getOrderItems (db : Store) (oid : Nat) : List OrderItemOut :=
  db.order_items.filterMap (fun it =>
    if it.order_id == oid then
      (db.products.find? (fun p => p.id == it.product_id)).map (fun p => mkItemOut (it, p))
    else none)

/-- get_order_by_id: first joined row with the id, decorated with items and
the derived total_amount. -/
def get_order_by_id (db : Store) (oid : Nat) : Option OrderOut :=
  ((ordersJoinCustomer db).find? (fun r => r.1.id == oid)).map (fun r =>
    buildOrderOut r (getOrderItems db oid))

/-- Payload line for creating an order item; quantity > 0, unit_price
absent or > 0 (pydantic validation). -/
structure OrderItemCreate where
  product_id : Nat
  quantity : Rat
  unit_price : Option Rat
deriving DecidableEq

structure OrderCreate where
  customer_id : Nat
  delivery_date : PyDate
  applied_discount : Rat
  items : List OrderItemCreate
deriving DecidableEq

structure OrderUpdate where
  delivery_date : Option PyDate
  items : Option (List OrderItemCreate)
  customer_id : Option Nat
  applied_discount : Option Rat
  status : Option String
deriving DecidableEq

/-- One aggregated entry of the Python agg dict (insertion-ordered). -/
structure AggEntry where
  product_id : Nat
  quantity : Rat
  unit_price : Option Rat
deriving DecidableEq

/-- Python truthiness applied to the optional price: None and 0.0 both fall
back to None (the source reads float(it.unit_price) if it.unit_price else
None). -/
def normPrice : Option Rat → Option Rat
  | some p => if p = 0 then none else some p
  | none => none

/-- One step of the aggregation loop: the quantity accumulates, the
unit_price slot is overwritten with this entry's (truthy) price or None. -/
def aggInsert (agg : List AggEntry) (it : OrderItemCreate) : List AggEntry :=
  match agg with
  | [] => [{ product_id := it.product_id, quantity := it.quantity,
             unit_price := normPrice it.unit_price }]
  | e :: rest =>
    if e.product_id = it.product_id then
      { e with quantity := e.quantity + it.quantity,
               unit_price := normPrice it.unit_price } :: rest
    else e :: aggInsert rest it

/-- The agg dict built by iterating over the payload items. -/
def aggregateItems (items : List OrderItemCreate) : List AggEntry :=
  items.foldl aggInsert []

/-- create_order's row-building loop: each aggregated entry requires its
product to exist and snapshots either the explicit price or the product's
current price; the rows are (product_id, quantity, unit_price). -/
def buildCreateRows (db : Store) : List AggEntry → Except DomainError (List (Nat × Rat × Rat))
  | [] => .ok []
  | e :: rest =>
    match db.products.find? (fun p => p.id == e.product_id) with
    | none => .error (.productNotFound e.product_id)
    | some prod =>
      (buildCreateRows db rest).map (fun rows =>
        (e.product_id, e.quantity,
         match e.unit_price with
         | none => prod.unit_price
         | some p => p) :: rows)

/-- create_order: validate the customer, aggregate the items, snapshot
prices, persist order plus items in one transaction, and return the
freshly loaded order. The source's running total is a local that is never
persisted (orders have no total column), so it is not modelled. -/
def create_order (db : Store) (payload : OrderCreate) (now : Int) :
    Except DomainError (Store × Option OrderOut) :=
  if (db.customers.find? (fun c => c.id == payload.customer_id)).isNone then
    .error (.customerNotFound payload.customer_id)
  else
    match buildCreateRows db (aggregateItems payload.items) with
    | .error e => .error e
    | .ok rows =>
      let oid := nextId (db.orders.map (·.id))
      let base := nextId (db.order_items.map (·.id))
      let newItems : List OrderItemRow := rows.enum.map (fun p =>
        { id := base + p.1, order_id := oid, product_id := p.2.1,
          quantity := p.2.2.1, unit_price := p.2.2.2, lot_id := none })
      let order : OrderRow :=
        { id := oid, customer_id := payload.customer_id,
          delivery_date := payload.delivery_date, created_at := now,
          applied_discount := payload.applied_discount, status := "created" }
      let db' : Store :=
        { db with
          orders := db.orders ++ [order],
          order_items := db.order_items ++ newItems }
      .ok (db', get_order_by_id db' oid)

/-- update_order's row-building loop: an aggregated entry without an
explicit price prefers the previously existing snapshot price for that
product; only when there was none is the live product required to exist
and its current price used. -/
def buildUpdateRows (db : Store) (existingPrice : Nat → Option Rat) :
    List AggEntry → Except DomainError (List (Nat × Rat × Rat))
  | [] => .ok []
  | e :: rest =>
    let price0 := match e.unit_price with
      | none => existingPrice e.product_id
      | some p => some p
    match price0 with
    | some p =>
      (buildUpdateRows db existingPrice rest).map (fun rows =>
        (e.product_id, e.quantity, p) :: rows)
    | none =>
      match db.products.find? (fun pr => pr.id == e.product_id) with
      | none => .error (.productNotFound e.product_id)
      | some prod =>
        (buildUpdateRows db existingPrice rest).map (fun rows =>
          (e.product_id, e.quantity, prod.unit_price) :: rows)

/-- The dict of previously existing snapshot prices keyed by product
(a later duplicate would win, as in the comprehension; under Store.WF
there is at most one item per product on the order). -/
def existingPriceOf (olds : List OrderItemRow) (pid : Nat) : Option Rat :=
  ((olds.filter (fun it => it.product_id == pid)).getLast?).map (·.unit_price)

/-- update_order: None when the order does not exist; otherwise set the
non-null scalar fields (the payload's customer_id is never applied by the
source), replace the whole item set when items is provided, and return
the freshly loaded order. The recomputed total in the source is a local
that is never persisted. On error the transaction rolls back. -/
def update_order (db : Store) (order_id : Nat) (payload : OrderUpdate) :
    Except DomainError (Store × Option OrderOut) :=
  match db.orders.find? (fun o => o.id == order_id) with
  | none => .ok (db, none)
  | some order0 =>
    let order1 := { order0 with
      delivery_date := payload.delivery_date.getD order0.delivery_date,
      status := payload.status.getD order0.status }
    let itemsResult : Except DomainError (List OrderItemRow) :=
      match payload.items with
      | none => .ok db.order_items
      | some its =>
        let existing := db.order_items.filter (fun it => it.order_id == order_id)
        let rest := db.order_items.filter (fun it => !(it.order_id == order_id))
        let base := nextId (db.order_items.map (·.id))
        (buildUpdateRows db (existingPriceOf existing) (aggregateItems its)).map
          (fun rows => rest ++ rows.enum.map (fun p =>
            { id := base + p.1, order_id := order_id, product_id := p.2.1,
              quantity := p.2.2.1, unit_price := p.2.2.2, lot_id := none }))
    match itemsResult with
    | .error e => .error e
    | .ok newItems =>
      let order2 := { order1 with
        applied_discount := payload.applied_discount.getD order1.applied_discount }
      let db' : Store := { db with
        orders := db.orders.map (fun o => if o.id = order_id then order2 else o),
        order_items := newItems }
      .ok (db', get_order_by_id db' order_id)

-- ---------------------------------------------------------------------------
-- Lots service (src/backend/app/api/v1/lots/service.py)
-- ---------------------------------------------------------------------------

def sortNat (l : List Nat) : List Nat := sortByLe (fun a b => decide (a ≤ b)) l

/-- The requested id set: Python set(order_item_ids) — duplicates removed,
only membership is meaningful. -/
def dedup : List Nat → List Nat
  | [] => []
  | a :: rest => if a ∈ dedup rest then dedup rest else a :: dedup rest

/-- The two-phase write of _apply_lot_associations: detach every item
currently pointing at this lot, then (unless the target set is empty)
attach exactly the target items. -/
def applyTargets (db : Store) (lot_id : Nat) (targets : List Nat) : Store :=
  let detached := db.order_items.map (fun it =>
    if it.lot_id == some lot_id then { it with lot_id := none } else it)
  let attached :=
    if targets.isEmpty then detached
    else detached.map (fun it =>
      if targets.contains it.id then { it with lot_id := some lot_id } else it)
  { db with order_items := attached }

/-- Target resolution and application once the optional order_id was
checked: an explicit id set (deduplicated) must fully resolve — scoped to
the order when one is given — else the sorted missing ids are reported;
with only an order_id the target set is all of that order's items; with
neither, nothing changes. -/
def applyAssocResolved (db : Store) (lot_id : Nat) (order_id : Option Nat)
    (order_item_ids : Option (List Nat)) : Except DomainError Store :=
  match order_item_ids with
  | some ids =>
    let explicit := dedup ids
    if explicit.isEmpty then .ok (applyTargets db lot_id [])
    else
      let found := db.order_items.filter (fun it =>
        explicit.contains it.id &&
        (match order_id with
         | some o => it.order_id == o
         | none => true))
      let found_ids := found.map (·.id)
      let missing := explicit.filter (fun i => !(found_ids.contains i))
      if missing.isEmpty then .ok (applyTargets db lot_id found_ids)
      else .error (.orderItemsNotFound (sortNat missing))
  | none =>
    match order_id with
    | some o =>
      .ok (applyTargets db lot_id
        ((db.order_items.filter (fun it => it.order_id == o)).map (·.id)))
    | none => .ok db

/-- _apply_lot_associations: ensure the scoping order exists when given,
then resolve and apply the targets; any error aborts the transaction with
no observable write. -/
def apply_lot_associations (db : Store) (lot_id : Nat) (order_id : Option Nat)
    (order_item_ids : Option (List Nat)) : Except DomainError Store :=
  match order_id with
  | some o =>
    if (db.orders.find? (fun x => x.id == o)).isNone then
      .error (.orderNotFound o)
    else applyAssocResolved db lot_id (some o) order_item_ids
  | none => applyAssocResolved db lot_id none order_item_ids

-- ---------------------------------------------------------------------------
-- Cashflow report (src/backend/app/api/v1/reports/service.py)
-- ---------------------------------------------------------------------------

structure CashflowRequest where
  start_date : PyDate
  end_date : PyDate
  include_incomes : Bool
deriving DecidableEq

structure CashEntry where
  order_id : Nat
  date : PyDate
  amount : Rat
deriving DecidableEq

structure CashTxn where
  id : Nat
  date : PyDate
  amount : Rat
  note : Option String
deriving DecidableEq

structure CashflowResponse where
  entries_total : Rat
  expenses_total : Rat
  net : Rat
  entries : List CashEntry
  expenses : List CashTxn
  incomes : List CashTxn
deriving DecidableEq

/-- BETWEEN start_date AND end_date, inclusive on both ends. -/
def inWindow (s e d : PyDate) : Bool := s.key ≤ d.key && d.key ≤ e.key

/-- ORDER BY date ASC, id ASC. -/
def dateIdLe (da : PyDate) (ia : Nat) (dbt : PyDate) (ib : Nat) : Bool :=
  da.key < dbt.key || (da.key == dbt.key && ia ≤ ib)

/-- The per-line summands of one order's cashflow amount:
quantity * unit_price * (1 - applied_discount / 100) over its items
(applied_discount is non-nullable with default 0, so the source's
coalesce is the identity). -/
def orderLineAmounts (db : Store) (o : OrderRow) : List Rat :=
  (db.order_items.filter (fun it => it.order_id == o.id)).map
    (fun it => it.quantity * it.unit_price * (1 - o.applied_discount / 100))

/-- report_cashflow: delivered orders in the window grouped into entries
(the inner join to order_items drops orders with no items), optional
incomes added into entries_total, expenses in the window subtracted for
net; the three totals are rounded at response-building time. -/
def report_cashflow (db : Store) (payload : CashflowRequest) : CashflowResponse :=
  let inW := inWindow payload.start_date payload.end_date
  let grouped := db.orders.filter (fun o =>
    inW o.delivery_date && o.status == "delivered" &&
    !(db.order_items.filter (fun it => it.order_id == o.id)).isEmpty)
  let sortedOrders := sortByLe
    (fun a b => dateIdLe a.delivery_date a.id b.delivery_date b.id) grouped
  let entries : List CashEntry := sortedOrders.map (fun o =>
    { order_id := o.id, date := o.delivery_date, amount := (orderLineAmounts db o).sum })
  let entriesTotal0 := (entries.map (·.amount)).sum
  let incomes : List CashTxn :=
    if payload.include_incomes then
      (sortByLe (fun a b => dateIdLe a.timestamp a.id b.timestamp b.id)
          (db.incomes.filter (fun i => inW i.timestamp))).map
        (fun i => { id := i.id, date := i.timestamp, amount := i.amount, note := i.note })
    else []
  let entriesTotal :=
    if payload.include_incomes then entriesTotal0 + (incomes.map (·.amount)).sum
    else entriesTotal0
  let expenses : List CashTxn :=
    (sortByLe (fun a b => dateIdLe a.timestamp a.id b.timestamp b.id)
        (db.expenses.filter (fun x => inW x.timestamp))).map
      (fun x => { id := x.id, date := x.timestamp, amount := x.amount, note := x.note })
  let expensesTotal := (expenses.map (·.amount)).sum
  let net := entriesTotal - expensesTotal
  { entries_total := round2 entriesTotal, expenses_total := round2 expensesTotal,
    net := round2 net, entries := entries, expenses := expenses, incomes := incomes }

-- ---------------------------------------------------------------------------
-- Lots listing (src/backend/app/api/v1/lots/service.py list_lots)
-- ---------------------------------------------------------------------------

/-- lots/constants.py ALLOWED_LOTS_SORTING_FIELDS, as the key set. -/
def ALLOWED_LOTS_SORTING_FIELDS : List String :=
  ["id", "name", "lot_date", "description", "lot_date_after", "lot_date_before"]

/-- The column the lots allow-list maps a field to. -/
def lotsSortVal (field : String) (l : LotRow) : SqlVal :=
  if field == "id" then .int l.id
  else if field == "name" then .str l.name
  else if field == "lot_date" || field == "lot_date_after"
       || field == "lot_date_before" then .dat l.lot_date
  else if field == "description" then
    match l.description with
    | some s => .str s
    | none => .null
  else .null

/-- One filter of list_lots (same shape as the orders filters; an ILIKE
against a NULL column is SQL-false). -/
def lotsFilterKeep (l : LotRow) (fv : String × String) : Bool :=
  let field := fv.1
  let value := fv.2
  if !(ALLOWED_LOTS_SORTING_FIELDS.contains field) then true
  else if field == "id" then
    match pyInt value with
    | some i => decide ((l.id : Int) = i)
    | none => decide ((l.id : Int) = -1)
  else if field == "lot_date_after" then
    match fromisoformat value with
    | some d => decide (d.key ≤ l.lot_date.key)
    | none => l.lot_date == ⟨1900, 1, 1⟩
  else if field == "lot_date_before" then
    match fromisoformat value with
    | some d => decide (l.lot_date.key ≤ d.key)
    | none => l.lot_date == ⟨1900, 1, 1⟩
  else
    match lotsSortVal field l with
    | .null => false
    | v => ilike value v.render

def lotsFiltered (db : Store) (filters : List (String × String)) : List LotRow :=
  db.lots.filter (fun l => filters.all (lotsFilterKeep l))

def lotsSortClauses (sort : List SortParam) : List (String × Bool) :=
  sort.filterMap (fun s =>
    if ALLOWED_LOTS_SORTING_FIELDS.contains s.field then
      some (s.field, lowerData s.order == "desc".data)
    else none)

/-- Pydantic output model for an order item listed under a lot. -/
structure LotOrderItemOut where
  id : Nat
  order_id : Nat
  order_date : PyDate
  product_id : Nat
  quantity : Rat
  unit_price : Rat
  product_name : Option String
  product_unit : Option String
  customer_id : Option Nat
  customer_name : Option String
deriving DecidableEq

structure LotOut where
  id : Nat
  lot_date : PyDate
  name : String
  description : Option String
  order_items : List LotOrderItemOut
deriving DecidableEq

/-- The related-items statement of list_lots: items of the page's lots,
inner-joined to product, order and customer; the grouping key is the
item's lot_id. -/
def lotItemsFetch (db : Store) (lot_ids : List Nat) : List (Nat × LotOrderItemOut) :=
  db.order_items.filterMap (fun it =>
    match it.lot_id with
    | some lid =>
      if lot_ids.contains lid then
        match db.products.find? (fun p => p.id == it.product_id),
              db.orders.find? (fun o => o.id == it.order_id) with
        | some p, some o =>
          (db.customers.find? (fun c => c.id == o.customer_id)).map (fun c =>
            (lid, { id := it.id, order_id := it.order_id,
                    order_date := o.delivery_date, product_id := it.product_id,
                    quantity := it.quantity, unit_price := it.unit_price,
                    product_name := some p.name, product_unit := some p.unit,
                    customer_id := some c.id, customer_name := some c.name }))
        | _, _ => none
      else none
    | none => none)

/-- The lots of the requested page (same shape as pagedOrders). -/
def pagedLots (db : Store) (params : ListingQueryParams) : List LotRow :=
  let page : Int := max 1 params.page
  let size : Int := params.size
  let offset : Int := (page - 1) * size
  let filtered := lotsFiltered db params.filters
  let clauses := lotsSortClauses params.sort
  let sorted := if clauses.isEmpty then filtered
                else sortByLe (clausesLe lotsSortVal clauses) filtered
  if 0 ≤ size then (sorted.drop offset.toNat).take size.toNat else sorted

/-- list_lots: filter, count, sort, paginate (only when size >= 0), then
attach each lot's related order items. -/
def list_lots (db : Store) (params : ListingQueryParams) : PaginationT LotOut :=
  let total := (lotsFiltered db params.filters).length
  let paged := pagedLots db params
  if paged.isEmpty then { total := total, items := [] }
  else
    let fetched := lotItemsFetch db (paged.map (·.id))
    { total := total,
      items := paged.map (fun l =>
        { id := l.id, lot_date := l.lot_date, name := l.name,
          description := l.description,
          order_items := (fetched.filter (fun x => x.1 == l.id)).map (·.2) }) }

-- ---------------------------------------------------------------------------
-- Generic listing helper (src/backend/app/utils/records_listing.py)
-- ---------------------------------------------------------------------------

/-- A client-supplied filter value, dispatched on by isinstance checks. -/
inductive PyVal
  | str (s : String)
  | int (i : Int)
  | num (q : Rat)
  | bool (b : Bool)
  | none
deriving DecidableEq

structure PfsQueryParams where
  page : Int
  size : Int
  filters : List (String × PyVal)
  sort : List SortParam
deriving DecidableEq

def lookupField (allowed : List (String × β)) (f : String) : Option β :=
  (allowed.find? (fun e => e.1 == f)).map (·.2)

/-- SQL equality between a column value and a non-string filter value
(numeric kinds compare numerically; unlike kinds do not match). -/
def sqlEq : SqlVal → PyVal → Bool
  | .int a, .int b => a == b
  | .int a, .num b => decide ((a : Rat) = b)
  | .rat a, .int b => decide (a = (b : Rat))
  | .rat a, .num b => a == b
  | .int a, .bool b => a == (if b then 1 else 0)
  | _, _ => false

/-- One filter of paginate_filter_sort: unknown fields and None values are
skipped; strings use ILIKE substring match; int, float and bool values
use equality. -/
def pfsKeep {α : Type} (allowed : List (String × (α → SqlVal))) (r : α)
    (fv : String × PyVal) : Bool :=
  match lookupField allowed fv.1 with
  | Option.none => true
  | Option.some col =>
    match fv.2 with
    | .none => true
    | .str s => ilike s (SqlVal.render (col r))
    | v => sqlEq (col r) v

def pfsClausesLe {α : Type} (clauses : List ((α → SqlVal) × Bool)) (a b : α) : Bool :=
  match clauses with
  | [] => true
  | (col, isDesc) :: rest =>
    if col a = col b then pfsClausesLe rest a b
    else if isDesc then SqlVal.ltB (col b) (col a)
    else SqlVal.ltB (col a) (col b)

/-- paginate_filter_sort: page and size floored to at least 1, filters and
sort restricted to the allow-list, total counted over the filtered (not
paginated) set, items then offset/limited. -/
def paginate_filter_sort {α : Type} (rows : List α)
    (allowed : List (String × (α → SqlVal))) (params : PfsQueryParams) :
    PaginationT α :=
  let page : Int := max 1 params.page
  let size : Int := max 1 params.size
  let offset : Int := (page - 1) * size
  let filtered := rows.filter (fun r => params.filters.all (pfsKeep allowed r))
  let total := filtered.length
  let clauses := params.sort.filterMap (fun s =>
    (lookupField allowed s.field).map (fun col => (col, s.order == "desc")))
  let sorted := if clauses.isEmpty then filtered
                else sortByLe (pfsClausesLe clauses) filtered
  { total := total, items := (sorted.drop offset.toNat).take size.toNat }

-- ---------------------------------------------------------------------------
-- Library lemmas about the sort, id and lookup helpers
-- ---------------------------------------------------------------------------

theorem mem_insertLe {le : α → α → Bool} {x a : α} {l : List α} :
    a ∈ insertLe le x l ↔ a = x ∨ a ∈ l := by
  induction l with
  | nil => simp [insertLe]
  | cons y ys ih =>
    by_cases h : le x y = true
    · simp [insertLe, h]
    · simp only [insertLe, h, if_neg, Bool.not_eq_true] at *
      simp [ih]
      tauto

theorem length_insertLe {le : α → α → Bool} {x : α} {l : List α} :
    (insertLe le x l).length = l.length + 1 := by
  induction l with
  | nil => simp [insertLe]
  | cons y ys ih =>
    by_cases h : le x y = true <;> simp [insertLe, h, ih]

theorem mem_sortByLe {le : α → α → Bool} {a : α} {l : List α} :
    a ∈ sortByLe le l ↔ a ∈ l := by
  induction l with
  | nil => simp [sortByLe]
  | cons y ys ih => simp [sortByLe, mem_insertLe, ih]

theorem length_sortByLe {le : α → α → Bool} {l : List α} :
    (sortByLe le l).length = l.length := by
  induction l with
  | nil => simp [sortByLe]
  | cons y ys ih => simp [sortByLe, length_insertLe, ih]

theorem le_foldr_max {x : Nat} {l : List Nat} (h : x ∈ l) :
    x ≤ l.foldr (fun a b => max a b) 0 := by
  induction l with
  | nil => cases h
  | cons y ys ih =>
    rcases List.mem_cons.mp h with rfl | h
    · exact Nat.le_max_left _ _
    · exact Nat.le_trans (ih h) (Nat.le_max_right _ _)

theorem lt_nextId {x : Nat} {l : List Nat} (h : x ∈ l) : x < nextId l :=
  Nat.lt_succ_of_le (le_foldr_max h)

/-- Under WF, no existing order item can reference the freshly generated
order id. -/
theorem fresh_order_id (db : Store) (hwf : db.WF) :
    ∀ it ∈ db.order_items, it.order_id ≠ nextId (db.orders.map (·.id)) := by
  intro it hit heq
  exact absurd (lt_nextId (hwf.2.2.2.2.2 it hit)) (by simp [heq])

-- ---------------------------------------------------------------------------
-- Characterization of the item aggregation
-- ---------------------------------------------------------------------------

/-- Sum of all submitted quantities for a product. -/
def sumQty (pid : Nat) (items : List OrderItemCreate) : Rat :=
  ((items.filter (fun it => it.product_id == pid)).map (·.quantity)).sum

/-- The last submitted entry for a product. -/
def lastFor (pid : Nat) : List OrderItemCreate → Option OrderItemCreate
  | [] => none
  | it :: rest =>
    match lastFor pid rest with
    | some x => some x
    | none => if it.product_id = pid then some it else none

/-- The price slot the aggregation leaves for a product: the truthy
explicit price of the last submitted entry for it, if any. -/
def lastNormPrice (pid : Nat) (items : List OrderItemCreate) : Option Rat :=
  (lastFor pid items).bind (fun it => normPrice it.unit_price)

/-- Lookup of the aggregated entry for a product. -/
def aggLookup (pid : Nat) : List AggEntry → Option AggEntry
  | [] => none
  | e :: rest => if e.product_id = pid then some e else aggLookup pid rest

theorem lastFor_eq_none_iff {pid : Nat} {items : List OrderItemCreate} :
    lastFor pid items = none ↔ ∀ it ∈ items, it.product_id ≠ pid := by
  induction items with
  | nil => simp [lastFor]
  | cons it rest ih =>
    simp only [lastFor, List.mem_cons]
    rcases h : lastFor pid rest with _ | x
    · rw [h] at ih
      by_cases hp : it.product_id = pid <;> (simp [hp]; try tauto)
    · simp only []
      constructor
      · intro hc; cases hc
      · intro hall
        have := (ih.mpr (fun y hy => hall y (Or.inr hy)))
        rw [h] at this; cases this

theorem aggInsert_keys (agg : List AggEntry) (it : OrderItemCreate) :
    (aggInsert agg it).map (·.product_id) =
    if it.product_id ∈ agg.map (·.product_id) then agg.map (·.product_id)
    else agg.map (·.product_id) ++ [it.product_id] := by
  induction agg with
  | nil => simp [aggInsert]
  | cons e rest ih =>
    by_cases h : e.product_id = it.product_id
    · simp [aggInsert, h]
    · have h2 : ¬ it.product_id = e.product_id := fun hh => h hh.symm
      simp only [aggInsert, if_neg h, List.map_cons, ih]
      by_cases hm : it.product_id ∈ rest.map (·.product_id) <;>
        simp [hm, h2]

theorem aggInsert_nodup {agg : List AggEntry} (it : OrderItemCreate)
    (h : (agg.map (·.product_id)).Nodup) :
    ((aggInsert agg it).map (·.product_id)).Nodup := by
  rw [aggInsert_keys]
  by_cases hm : it.product_id ∈ agg.map (·.product_id)
  · simpa [hm]
  · rw [if_neg hm]
    exact List.Nodup.append h (List.nodup_singleton _)
      (fun a ha hb => hm ((List.mem_singleton.mp hb) ▸ ha))

theorem aggFold_nodup (items : List OrderItemCreate) :
    ∀ acc : List AggEntry, (acc.map (·.product_id)).Nodup →
    (((items.foldl aggInsert acc).map (·.product_id)).Nodup) := by
  induction items with
  | nil => intro acc h; simpa using h
  | cons it rest ih =>
    intro acc h
    exact ih _ (aggInsert_nodup it h)

theorem aggFold_keys_mem (items : List OrderItemCreate) :
    ∀ (acc : List AggEntry) (pid : Nat),
      (pid ∈ (items.foldl aggInsert acc).map (·.product_id) ↔
       pid ∈ acc.map (·.product_id) ∨ pid ∈ items.map (·.product_id)) := by
  induction items with
  | nil => simp
  | cons it rest ih =>
    intro acc pid
    rw [List.foldl_cons, ih (aggInsert acc it) pid, aggInsert_keys]
    by_cases hm : it.product_id ∈ acc.map (·.product_id)
    · simp only [if_pos hm, List.map_cons, List.mem_cons]
      constructor
      · rintro (h | h) <;> tauto
      · rintro (h | rfl | h) <;> tauto
    · simp only [if_neg hm, List.mem_append, List.map_cons, List.mem_cons,
        List.mem_singleton]
      tauto

theorem aggInsert_lookup (agg : List AggEntry) (it : OrderItemCreate) (pid : Nat) :
    aggLookup pid (aggInsert agg it) =
    if it.product_id = pid then
      some { product_id := it.product_id,
             quantity := ((aggLookup pid agg).elim 0 (·.quantity)) + it.quantity,
             unit_price := normPrice it.unit_price }
    else aggLookup pid agg := by
  induction agg with
  | nil =>
    by_cases h : it.product_id = pid
    · subst h; simp [aggInsert, aggLookup]
    · simp [aggInsert, aggLookup, h]
  | cons e rest ih =>
    by_cases he : e.product_id = it.product_id
    · by_cases hp : it.product_id = pid
      · subst hp
        simp [aggInsert, aggLookup, he]
      · have hep : ¬ e.product_id = pid := fun hh => hp (he.symm.trans hh)
        simp [aggInsert, aggLookup, he, hep, hp]
    · by_cases hep : e.product_id = pid
      · have hp : ¬ it.product_id = pid := fun hh => he (hep.trans hh.symm)
        have hpi : ¬ pid = it.product_id := fun hh => hp hh.symm
        simp [aggInsert, aggLookup, he, hep, hp, hpi]
      · simp [aggInsert, aggLookup, he, hep, ih]

theorem aggFold_lookup (items : List OrderItemCreate) :
    ∀ (acc : List AggEntry) (pid : Nat),
      aggLookup pid (items.foldl aggInsert acc) =
      match lastFor pid items with
      | some x =>
        some { product_id := pid,
               quantity := ((aggLookup pid acc).elim 0 (·.quantity)) + sumQty pid items,
               unit_price := normPrice x.unit_price }
      | none => aggLookup pid acc := by
  induction items with
  | nil => simp [lastFor, sumQty]
  | cons it rest ih =>
    intro acc pid
    rw [List.foldl_cons, ih (aggInsert acc it) pid]
    rcases hrest : lastFor pid rest with _ | x
    · have hnone : ∀ y ∈ rest, y.product_id ≠ pid := lastFor_eq_none_iff.mp hrest
      have hfilter : rest.filter (fun y => y.product_id == pid) = [] := by
        rw [List.filter_eq_nil_iff]
        intro y hy
        simpa using hnone y hy
      by_cases hp : it.product_id = pid
      · subst hp
        simp [lastFor, hrest, aggInsert_lookup, sumQty, hfilter]
      · simp [lastFor, hrest, hp, aggInsert_lookup, sumQty, hfilter]
    · have hsum : sumQty pid (it :: rest) =
          (if it.product_id = pid then it.quantity else 0) + sumQty pid rest := by
        by_cases hp : it.product_id = pid <;>
          simp [sumQty, List.filter_cons, hp]
      by_cases hp : it.product_id = pid
      · subst hp
        simp [lastFor, hrest, aggInsert_lookup, hsum, Rat.add_assoc]
      · simp [lastFor, hrest, aggInsert_lookup, hp, hsum]

/-- The aggregated entries of the payload items, characterized entrywise:
each distinct product appears once, with the summed quantity and the last
entry's (truthy) explicit price. -/
theorem aggregateItems_lookup (items : List OrderItemCreate) (pid : Nat) :
    aggLookup pid (aggregateItems items) =
    match lastFor pid items with
    | some x =>
      some { product_id := pid, quantity := sumQty pid items,
             unit_price := normPrice x.unit_price }
    | none => none := by
  have h := aggFold_lookup items [] pid
  rcases hl : lastFor pid items with _ | x
  · simpa [aggregateItems, aggLookup, hl] using h
  · rw [hl] at h
    simpa [aggregateItems, aggLookup, Rat.zero_add] using h

theorem aggLookup_of_mem {agg : List AggEntry} {e : AggEntry}
    (hmem : e ∈ agg) (hnd : (agg.map (·.product_id)).Nodup) :
    aggLookup e.product_id agg = some e := by
  induction agg with
  | nil => cases hmem
  | cons x rest ih =>
    rcases List.mem_cons.mp hmem with rfl | hmem2
    · simp [aggLookup]
    · have hne : ¬ x.product_id = e.product_id := by
        intro hh
        have : e.product_id ∈ rest.map (·.product_id) := List.mem_map_of_mem _ hmem2
        rw [← hh] at this
        exact (List.nodup_cons.mp (by simpa using hnd)).1 this
      simp only [aggLookup, if_neg hne]
      exact ih hmem2 (List.nodup_cons.mp (by simpa using hnd)).2

theorem mem_aggLookup {agg : List AggEntry} {e : AggEntry} {pid : Nat}
    (h : aggLookup pid agg = some e) : e ∈ agg := by
  induction agg with
  | nil => cases h
  | cons x rest ih =>
    by_cases hx : x.product_id = pid
    · simp only [aggLookup, if_pos hx] at h
      exact (Option.some_inj.mp h) ▸ List.mem_cons_self x rest
    · simp only [aggLookup, if_neg hx] at h
      exact List.mem_cons_of_mem x (ih h)

def productById (db : Store) (pid : Nat) : Option Product :=
  db.products.find? (fun p => p.id == pid)

theorem buildCreateRows_ok (db : Store) :
    ∀ (agg : List AggEntry) (rows : List (Nat × Rat × Rat)),
      buildCreateRows db agg = .ok rows →
      (∀ e ∈ agg, ∃ prod, productById db e.product_id = some prod ∧
        (e.product_id, e.quantity,
          match e.unit_price with
          | none => prod.unit_price
          | some p => p) ∈ rows) ∧
      rows.map (fun r => r.1) = agg.map (·.product_id) := by
  intro agg
  induction agg with
  | nil =>
    intro rows h
    simp only [buildCreateRows] at h
    cases h
    simp
  | cons e rest ih =>
    intro rows h
    simp only [buildCreateRows, productById] at h
    rcases hfind : db.products.find? (fun p => p.id == e.product_id) with _ | prod
    · rw [hfind] at h; cases h
    · rw [hfind] at h
      rcases hrest : buildCreateRows db rest with err | rows0
      · rw [hrest] at h; cases h
      · rw [hrest] at h
        simp only [Except.map] at h
        cases h
        rcases ih rows0 hrest with ⟨hmem, hmap⟩
        constructor
        · intro x hx
          rcases List.mem_cons.mp hx with rfl | hx2
          · exact ⟨prod, by simpa [productById] using hfind, List.mem_cons_self _ _⟩
          · rcases hmem x hx2 with ⟨p2, hp2, hin⟩
            exact ⟨p2, hp2, List.mem_cons_of_mem _ hin⟩
        · simpa using hmap

/-- Membership in the rows built by create_order, traced back to the
aggregated entry they came from. -/
theorem buildCreateRows_mem (db : Store) :
    ∀ (agg : List AggEntry) (rows : List (Nat × Rat × Rat)),
      buildCreateRows db agg = .ok rows →
      ∀ r ∈ rows, ∃ e ∈ agg, ∃ prod,
        productById db e.product_id = some prod ∧
        r = (e.product_id, e.quantity,
          match e.unit_price with
          | none => prod.unit_price
          | some p => p) := by
  intro agg
  induction agg with
  | nil =>
    intro rows h r hr
    simp only [buildCreateRows] at h
    cases h
    cases hr
  | cons e rest ih =>
    intro rows h r hr
    simp only [buildCreateRows] at h
    rcases hfind : db.products.find? (fun p => p.id == e.product_id) with _ | prod
    · rw [hfind] at h; cases h
    · rw [hfind] at h
      rcases hrest : buildCreateRows db rest with err | rows0
      · rw [hrest] at h; cases h
      · rw [hrest] at h
        simp only [Except.map] at h
        cases h
        rcases List.mem_cons.mp hr with rfl | hr2
        · exact ⟨e, List.mem_cons_self _ _, prod, by simpa [productById] using hfind, rfl⟩
        · rcases ih rows0 hrest r hr2 with ⟨e2, he2, prod2, hp2, hr3⟩
          exact ⟨e2, List.mem_cons_of_mem _ he2, prod2, hp2, hr3⟩

/-- The items create_order inserts for the fresh order id, as observed on
the committed store. -/
def newOrderItems (db db' : Store) : List OrderItemRow :=
  db'.order_items.filter (fun it => it.order_id == nextId (db.orders.map (·.id)))

/-- The committed store of an order-service call: the new store on success,
the unchanged store when the transaction rolled back. -/
def okStore (db : Store) : Except DomainError (Store × Option OrderOut) → Store
  | .ok x => x.1
  | .error _ => db

def okOrderOut : Except DomainError (Store × Option OrderOut) → Option OrderOut
  | .ok x => x.2
  | .error _ => none

theorem create_order_ok {db db' : Store} {payload : OrderCreate} {now : Int}
    {res : Option OrderOut}
    (h : create_order db payload now = .ok (db', res)) :
    ∃ rows, buildCreateRows db (aggregateItems payload.items) = .ok rows ∧
      db'.order_items = db.order_items ++ rows.enum.map (fun p =>
        ({ id := nextId (db.order_items.map (·.id)) + p.1,
           order_id := nextId (db.orders.map (·.id)), product_id := p.2.1,
           quantity := p.2.2.1, unit_price := p.2.2.2, lot_id := none } : OrderItemRow)) ∧
      db'.orders = db.orders ++
        [{ id := nextId (db.orders.map (·.id)),
           customer_id := payload.customer_id, delivery_date := payload.delivery_date,
           created_at := now, applied_discount := payload.applied_discount,
           status := "created" }] := by
  unfold create_order at h
  by_cases hc : (db.customers.find? (fun c => c.id == payload.customer_id)).isNone
  · rw [if_pos hc] at h; cases h
  · rw [if_neg hc] at h
    rcases hb : buildCreateRows db (aggregateItems payload.items) with e | rows
    · rw [hb] at h; cases h
    · rw [hb] at h
      simp only [Except.ok.injEq, Prod.mk.injEq] at h
      obtain ⟨rfl, -⟩ := h
      exact ⟨rows, rfl, rfl, rfl⟩

theorem triple_map_enum (rows : List (Nat × Rat × Rat)) (base oid : Nat) :
    ((rows.enum.map (fun p =>
      ({ id := base + p.1, order_id := oid, product_id := p.2.1,
         quantity := p.2.2.1, unit_price := p.2.2.2, lot_id := none } : OrderItemRow))).map
      (fun it => (it.product_id, it.quantity, it.unit_price))) = rows := by
  rw [List.map_map]
  calc rows.enum.map _ = rows.enum.map (fun p => ((p.2.1, p.2.2.1, p.2.2.2) : Nat × Rat × Rat)) := rfl
    _ = (rows.enum.map Prod.snd).map (fun r => ((r.1, r.2.1, r.2.2) : Nat × Rat × Rat)) := by
        rw [List.map_map]; rfl
    _ = rows.map (fun r => ((r.1, r.2.1, r.2.2) : Nat × Rat × Rat)) := by
        rw [List.enum_map_snd]
    _ = rows := by
        conv_rhs => rw [show rows = rows.map id from (List.map_id rows).symm]
        exact List.map_congr_left (fun r _ => rfl)

/-- On a successful create_order, the fresh order's stored items are
exactly the inserted rows, and their raw (product, quantity, price)
triples are the rows buildCreateRows produced. -/
theorem newOrderItems_triples {db db' : Store} {payload : OrderCreate} {now : Int}
    {res : Option OrderOut} (hwf : db.WF)
    (h : create_order db payload now = .ok (db', res)) :
    ∃ rows, buildCreateRows db (aggregateItems payload.items) = .ok rows ∧
      (newOrderItems db db').map (fun it => (it.product_id, it.quantity, it.unit_price)) = rows := by
  rcases create_order_ok h with ⟨rows, hb, hitems, -⟩
  refine ⟨rows, hb, ?_⟩
  unfold newOrderItems
  rw [hitems, List.filter_append]
  have hold : db.order_items.filter
      (fun it => it.order_id == nextId (db.orders.map (·.id))) = [] := by
    rw [List.filter_eq_nil_iff]
    intro it hit
    simpa using fresh_order_id db hwf it hit
  have hnew : (rows.enum.map (fun p =>
      ({ id := nextId (db.order_items.map (·.id)) + p.1,
         order_id := nextId (db.orders.map (·.id)), product_id := p.2.1,
         quantity := p.2.2.1, unit_price := p.2.2.2, lot_id := none } : OrderItemRow))).filter
      (fun it => it.order_id == nextId (db.orders.map (·.id))) =
      rows.enum.map (fun p =>
      ({ id := nextId (db.order_items.map (·.id)) + p.1,
         order_id := nextId (db.orders.map (·.id)), product_id := p.2.1,
         quantity := p.2.2.1, unit_price := p.2.2.2, lot_id := none } : OrderItemRow)) := by
    rw [List.filter_eq_self]
    intro it hit
    rcases List.mem_map.mp hit with ⟨p, -, rfl⟩
    simp
  rw [hold, hnew, List.nil_append]
  exact triple_map_enum rows _ _

/-- C1 (amended): create_order aggregates the payload items into exactly
one stored OrderItem per distinct product, whose quantity is the sum of
all submitted quantities for that product; the unit_price is decided by
the LAST submitted entry for the product — its explicit price if it gave
one, otherwise the referenced Product's current price (an explicit price
on an earlier entry is discarded when a later entry omits it). In
particular, N entries for one product with no explicit price yield a
single item with the summed quantity at the product's current price. -/
theorem C1_create_order_aggregation (db db' : Store) (payload : OrderCreate)
    (now : Int) (res : Option OrderOut) (hwf : db.WF)
    (h : create_order db payload now = .ok (db', res)) :
    ((newOrderItems db db').map (·.product_id)).Nodup ∧
    (∀ it ∈ newOrderItems db db', it.product_id ∈ payload.items.map (·.product_id)) ∧
    (∀ x ∈ payload.items, x.product_id ∈ (newOrderItems db db').map (·.product_id)) ∧
    (∀ it ∈ newOrderItems db db',
      it.quantity = sumQty it.product_id payload.items ∧
      ((∃ p, lastNormPrice it.product_id payload.items = some p ∧ it.unit_price = p) ∨
       (lastNormPrice it.product_id payload.items = none ∧
        ∃ prod, productById db it.product_id = some prod ∧
          it.unit_price = prod.unit_price))) := by
  rcases newOrderItems_triples hwf h with ⟨rows, hb, htr⟩
  have hkeys : (newOrderItems db db').map (·.product_id) = rows.map (fun r => r.1) := by
    calc (newOrderItems db db').map (·.product_id)
        = ((newOrderItems db db').map
            (fun it => (it.product_id, it.quantity, it.unit_price))).map (fun t => t.1) := by
          rw [List.map_map]; rfl
      _ = rows.map (fun r => r.1) := by rw [htr]
  have hko := buildCreateRows_ok db _ rows hb
  have haggkeys : rows.map (fun r => r.1) =
      (aggregateItems payload.items).map (·.product_id) := hko.2
  have hnodupagg : ((aggregateItems payload.items).map (·.product_id)).Nodup := by
    have := aggFold_nodup payload.items [] (by simp)
    simpa [aggregateItems] using this
  have hmemiff : ∀ pid, pid ∈ (aggregateItems payload.items).map (·.product_id) ↔
      pid ∈ payload.items.map (·.product_id) := by
    intro pid
    have := aggFold_keys_mem payload.items [] pid
    simpa [aggregateItems] using this
  refine ⟨?_, ?_, ?_, ?_⟩
  · rw [hkeys, haggkeys]; exact hnodupagg
  · intro it hit
    have hm : it.product_id ∈ (newOrderItems db db').map (·.product_id) :=
      List.mem_map_of_mem _ hit
    rw [hkeys, haggkeys] at hm
    exact (hmemiff _).mp hm
  · intro x hx
    rw [hkeys, haggkeys]
    exact (hmemiff _).mpr (List.mem_map_of_mem _ hx)
  · intro it hit
    have htrip : (it.product_id, it.quantity, it.unit_price) ∈ rows := by
      rw [← htr]; exact List.mem_map_of_mem _ hit
    rcases buildCreateRows_mem db _ rows hb _ htrip with ⟨e, he, prod, hprod, heq⟩
    have h1 : it.product_id = e.product_id := congrArg (fun t => t.1) heq
    have h2 : it.quantity = e.quantity := congrArg (fun t => t.2.1) heq
    have h3 : it.unit_price =
        (match e.unit_price with | none => prod.unit_price | some p => p) :=
      congrArg (fun t => t.2.2) heq
    have hlook : aggLookup e.product_id (aggregateItems payload.items) = some e :=
      aggLookup_of_mem he hnodupagg
    have hchar := aggregateItems_lookup payload.items e.product_id
    rcases hlf : lastFor e.product_id payload.items with _ | x
    · rw [hlf] at hchar; rw [hchar] at hlook; cases hlook
    · rw [hlf] at hchar
      rw [hchar] at hlook
      have he2 := Option.some_inj.mp hlook
      have hq : e.quantity = sumQty e.product_id payload.items := by rw [← he2]
      have hup : e.unit_price = normPrice x.unit_price := by rw [← he2]
      have hlnp : lastNormPrice it.product_id payload.items = normPrice x.unit_price := by
        rw [h1, lastNormPrice, hlf]; rfl
      constructor
      · rw [h2, hq, h1]
      · rcases hnp : normPrice x.unit_price with _ | p
        · right
          refine ⟨by rw [hlnp, hnp], prod, by rw [h1]; exact hprod, ?_⟩
          rw [h3]
          have hnone : e.unit_price = none := by rw [hup, hnp]
          rw [hnone]
        · left
          refine ⟨p, by rw [hlnp, hnp], ?_⟩
          rw [h3]
          have hsome : e.unit_price = some p := by rw [hup, hnp]
          rw [hsome]

def dbC1 : Store :=
  { customers := [{ id := 1, name := "Alice" }],
    products := [{ id := 1, name := "Apples", unit := "weight", unit_price := 5 }],
    orders := [], order_items := [], lots := [], expenses := [], incomes := [] }

def payC1 : OrderCreate :=
  { customer_id := 1, delivery_date := ⟨2024, 1, 10⟩, applied_discount := 0,
    items := [{ product_id := 1, quantity := 2, unit_price := some 9 },
              { product_id := 1, quantity := 3, unit_price := none }] }

/-- C1 counterexample: two entries for product 1, the first with explicit
price 9, the second without; the claim says the explicit price 9 wins,
but create_order stores the single aggregated item at the product's
current price 5, because the later entry overwrote the price slot. -/
theorem C1_counterexample :
    ((okStore dbC1 (create_order dbC1 payC1 0)).order_items.map
      (fun it => (it.product_id, it.quantity, it.unit_price))) = [(1, 5, 5)] ∧
    (5 : Rat) ≠ 9 := by
  constructor
  · with_unfolding_all rfl
  · with_unfolding_all decide

def payW1 : OrderCreate :=
  { customer_id := 1, delivery_date := ⟨2024, 1, 10⟩, applied_discount := 0,
    items := [{ product_id := 1, quantity := 2, unit_price := none },
              { product_id := 1, quantity := 3, unit_price := none }] }

/-- C1 witness: the amended theorem instantiated at a store with one
customer and one product and a payload of two unpriced entries for the
same product. -/
theorem C1_witness :
    ((newOrderItems dbC1 (okStore dbC1 (create_order dbC1 payW1 0))).map (·.product_id)).Nodup ∧
    (∀ it ∈ newOrderItems dbC1 (okStore dbC1 (create_order dbC1 payW1 0)),
       it.product_id ∈ payW1.items.map (·.product_id)) ∧
    (∀ x ∈ payW1.items, x.product_id ∈
       (newOrderItems dbC1 (okStore dbC1 (create_order dbC1 payW1 0))).map (·.product_id)) ∧
    (∀ it ∈ newOrderItems dbC1 (okStore dbC1 (create_order dbC1 payW1 0)),
      it.quantity = sumQty it.product_id payW1.items ∧
      ((∃ p, lastNormPrice it.product_id payW1.items = some p ∧ it.unit_price = p) ∨
       (lastNormPrice it.product_id payW1.items = none ∧
        ∃ prod, productById dbC1 it.product_id = some prod ∧
          it.unit_price = prod.unit_price))) :=
  C1_create_order_aggregation dbC1 (okStore dbC1 (create_order dbC1 payW1 0)) payW1 0
    (okOrderOut (create_order dbC1 payW1 0)) (by decide) (by with_unfolding_all rfl)

-- ---------------------------------------------------------------------------
-- C2: the two read paths compute the same derived total
-- ---------------------------------------------------------------------------

theorem map_filterMap_sublist {α β γ : Type} {f : α → Option β} {g : β → γ} {h : α → γ}
    (hfg : ∀ a b, f a = some b → g b = h a) :
    ∀ l : List α, ((l.filterMap f).map g).Sublist (l.map h) := by
  intro l
  induction l with
  | nil => simp
  | cons a as ih =>
    rcases hfa : f a with _ | b
    · simp only [List.filterMap_cons, hfa, List.map_cons]
      exact ih.cons _
    · simp only [List.filterMap_cons, hfa, List.map_cons]
      rw [hfg a b hfa]
      exact ih.cons₂ _

/-- The joined order rows carry pairwise distinct order ids when the store
is well formed. -/
theorem ordersJoinCustomer_nodup {db : Store} (hwf : db.WF) :
    ((ordersJoinCustomer db).map (fun r => r.1.id)).Nodup := by
  have hsub : (((db.orders.filterMap (fun o =>
      (db.customers.find? (fun c => c.id == o.customer_id)).map (fun c => (o, c.name)))).map
        (fun r => r.1.id))).Sublist (db.orders.map (·.id)) := by
    apply map_filterMap_sublist
    intro o r hr
    rcases Option.map_eq_some'.mp hr with ⟨c, -, rfl⟩
    rfl
  exact (hsub.nodup hwf.2.2.1)

theorem find?_key_unique {α : Type} {l : List α} {x : α} {key : α → Nat}
    (hnd : (l.map key).Nodup) (hx : x ∈ l) :
    l.find? (fun y => key y == key x) = some x := by
  induction l with
  | nil => cases hx
  | cons a as ih =>
    rcases List.mem_cons.mp hx with rfl | hx2
    · simp [List.find?]
    · have hka : ¬ key a = key x := by
        intro hh
        have hmem : key x ∈ as.map key := List.mem_map_of_mem _ hx2
        rw [← hh] at hmem
        exact (List.nodup_cons.mp (by simpa using hnd)).1 hmem
      simp only [List.find?]
      rw [show (key a == key x) = false by simpa using hka]
      exact ih (List.nodup_cons.mp (by simpa using hnd)).2 hx2

/-- Restricting the page-wide item fetch of list_orders to one order of the
page gives exactly the item set the get-by-id path fetches. -/
theorem itemsFetch_filter (db : Store) (ids : List Nat) (oid : Nat) (hmem : oid ∈ ids) :
    ((itemsFetch db ids).filter (fun x => x.1.order_id == oid)).map mkItemOut =
    getOrderItems db oid := by
  unfold itemsFetch getOrderItems
  induction db.order_items with
  | nil => simp
  | cons it rest ih =>
    by_cases ho : it.order_id = oid
    · subst ho
      rcases hp : db.products.find? (fun p => p.id == it.product_id) with _ | p
      · simpa [List.filterMap_cons, hp, hmem] using ih
      · simpa [List.filterMap_cons, hp, hmem, List.filter_cons] using ih
    · by_cases hc : it.order_id ∈ ids
      · rcases hp : db.products.find? (fun p => p.id == it.product_id) with _ | p
        · simpa [List.filterMap_cons, hp, hc, ho] using ih
        · simpa [List.filterMap_cons, hp, hc, ho, List.filter_cons] using ih
      · simpa [List.filterMap_cons, hc, ho] using ih

theorem mem_pagedOrders {db : Store} {params : ListingQueryParams}
    {r : OrderRow × String} (h : r ∈ pagedOrders db params) :
    r ∈ ordersFiltered db params.filters := by
  unfold pagedOrders at h
  by_cases hs : (0 : Int) ≤ params.size
  · rw [if_pos hs] at h
    have h2 := List.take_subset _ _ h
    have h3 := List.drop_subset _ _ h2
    by_cases hc : (ordersSortClauses params.sort).isEmpty
    · simpa [hc] using h3
    · rw [if_neg hc] at h3
      exact mem_sortByLe.mp h3
  · rw [if_neg hs] at h
    by_cases hc : (ordersSortClauses params.sort).isEmpty
    · simpa [hc] using h
    · rw [if_neg hc] at h
      exact mem_sortByLe.mp h

/-- C2: for a well-formed store, every order returned by list_orders
carries total_amount = round(sum(quantity * unit_price) * (1 -
applied_discount / 100), 2), and the get-by-id read path returns the very
same projection (hence the same total) for that order id. -/
theorem C2_total_consistency (db : Store) (params : ListingQueryParams)
    (hwf : db.WF) :
    ∀ o ∈ (list_orders db params).items,
      o.total_amount = round2 (((o.items.map (fun it => it.quantity * it.unit_price)).sum) *
        (1 - o.applied_discount / 100)) ∧
      get_order_by_id db o.id = some o := by
  intro o ho
  unfold list_orders at ho
  by_cases hp : (pagedOrders db params).isEmpty
  · simp [hp] at ho
  · simp only [hp, if_neg, Bool.false_eq_true, not_false_iff] at ho
    simp only [List.mem_map] at ho
    rcases ho with ⟨r, hr, rfl⟩
    have hrf : r ∈ ordersFiltered db params.filters := mem_pagedOrders hr
    have hrj : r ∈ ordersJoinCustomer db := List.mem_of_mem_filter hrf
    have hidmem : r.1.id ∈ (pagedOrders db params).map (fun r => r.1.id) :=
      List.mem_map_of_mem _ hr
    have hitems : ((itemsFetch db ((pagedOrders db params).map (fun r => r.1.id))).filter
        (fun x => x.1.order_id == r.1.id)).map mkItemOut = getOrderItems db r.1.id :=
      itemsFetch_filter db _ _ hidmem
    constructor
    · simp [buildOrderOut]
    · unfold get_order_by_id
      have hfind : (ordersJoinCustomer db).find? (fun y => y.1.id == r.1.id) = some r :=
        find?_key_unique (ordersJoinCustomer_nodup hwf) hrj
      rw [show (fun y : OrderRow × String => y.1.id == (buildOrderOut r
          (((itemsFetch db ((pagedOrders db params).map (fun r => r.1.id))).filter
            (fun x => x.1.order_id == r.1.id)).map mkItemOut)).id) =
          (fun y : OrderRow × String => y.1.id == r.1.id) from rfl]
      rw [hfind, hitems]
      simp [buildOrderOut]

def dbC2 : Store :=
  { customers := [{ id := 1, name := "Alice" }],
    products := [{ id := 1, name := "Apples", unit := "weight", unit_price := 5 }],
    orders := [{ id := 1, customer_id := 1, delivery_date := ⟨2024, 1, 10⟩,
                 created_at := 0, applied_discount := 50, status := "created" }],
    order_items := [{ id := 1, order_id := 1, product_id := 1, quantity := 2,
                      unit_price := 5, lot_id := none }],
    lots := [], expenses := [], incomes := [] }

def pC2 : ListingQueryParams := { page := 1, size := 10, filters := [], sort := [] }

def oC2 : OrderOut :=
  match (list_orders dbC2 pC2).items with
  | o :: _ => o
  | [] =>
    { id := 0, customer_id := 0, delivery_date := ⟨1970, 1, 1⟩, created_at := 0,
      total_amount := 0, applied_discount := 0, status := "", items := [],
      customer_name := none }

set_option maxRecDepth 4000 in
/-- C2 witness: on a one-order store with a 50 percent discount, the listed
order carries the rounded derived total and the get-by-id path returns the
identical projection. -/
theorem C2_witness :
    oC2.total_amount = round2 (((oC2.items.map (fun it => it.quantity * it.unit_price)).sum) *
      (1 - oC2.applied_discount / 100)) ∧
    get_order_by_id dbC2 oC2.id = some oC2 :=
  C2_total_consistency dbC2 pC2 (by decide) oC2 (by with_unfolding_all decide)

-- ---------------------------------------------------------------------------
-- C3: item replacement prefers the previous snapshot price
-- ---------------------------------------------------------------------------

theorem buildUpdateRows_keys (db : Store) (ep : Nat → Option Rat) :
    ∀ (agg : List AggEntry) (rows : List (Nat × Rat × Rat)),
      buildUpdateRows db ep agg = .ok rows →
      rows.map (fun r => r.1) = agg.map (·.product_id) := by
  intro agg
  induction agg with
  | nil =>
    intro rows h
    simp only [buildUpdateRows] at h
    cases h
    simp
  | cons e rest ih =>
    intro rows h
    simp only [buildUpdateRows] at h
    rcases hp0 : (match e.unit_price with
        | none => ep e.product_id
        | some p => some p) with _ | p
    · rw [hp0] at h
      rcases hfind : db.products.find? (fun pr => pr.id == e.product_id) with _ | prod
      · rw [hfind] at h; cases h
      · rw [hfind] at h
        rcases hrest : buildUpdateRows db ep rest with err | rows0
        · rw [hrest] at h; cases h
        · rw [hrest] at h
          simp only [Except.map] at h
          cases h
          simpa using ih rows0 hrest
    · rw [hp0] at h
      rcases hrest : buildUpdateRows db ep rest with err | rows0
      · rw [hrest] at h; cases h
      · rw [hrest] at h
        simp only [Except.map] at h
        cases h
        simpa using ih rows0 hrest

theorem buildUpdateRows_mem (db : Store) (ep : Nat → Option Rat) :
    ∀ (agg : List AggEntry) (rows : List (Nat × Rat × Rat)),
      buildUpdateRows db ep agg = .ok rows →
      ∀ r ∈ rows, ∃ e ∈ agg, r.1 = e.product_id ∧ r.2.1 = e.quantity ∧
        ((∃ p, e.unit_price = some p ∧ r.2.2 = p) ∨
         (e.unit_price = none ∧ ∃ p, ep e.product_id = some p ∧ r.2.2 = p) ∨
         (e.unit_price = none ∧ ep e.product_id = none ∧
          ∃ prod, productById db e.product_id = some prod ∧ r.2.2 = prod.unit_price)) := by
  intro agg
  induction agg with
  | nil =>
    intro rows h r hr
    simp only [buildUpdateRows] at h
    cases h
    cases hr
  | cons e rest ih =>
    intro rows h r hr
    simp only [buildUpdateRows] at h
    rcases hup : e.unit_price with _ | p
    · rw [hup] at h
      simp only [] at h
      rcases hep : ep e.product_id with _ | p
      · rw [hep] at h
        rcases hfind : db.products.find? (fun pr => pr.id == e.product_id) with _ | prod
        · rw [hfind] at h; cases h
        · rw [hfind] at h
          rcases hrest : buildUpdateRows db ep rest with err | rows0
          · rw [hrest] at h; cases h
          · rw [hrest] at h
            simp only [Except.map] at h
            cases h
            rcases List.mem_cons.mp hr with rfl | hr2
            · exact ⟨e, List.mem_cons_self _ _, rfl, rfl,
                Or.inr (Or.inr ⟨hup, hep, prod, by simpa [productById] using hfind, rfl⟩)⟩
            · rcases ih rows0 hrest r hr2 with ⟨e2, he2, hx⟩
              exact ⟨e2, List.mem_cons_of_mem _ he2, hx⟩
      · rw [hep] at h
        rcases hrest : buildUpdateRows db ep rest with err | rows0
        · rw [hrest] at h; cases h
        · rw [hrest] at h
          simp only [Except.map] at h
          cases h
          rcases List.mem_cons.mp hr with rfl | hr2
          · exact ⟨e, List.mem_cons_self _ _, rfl, rfl,
              Or.inr (Or.inl ⟨hup, p, hep, rfl⟩)⟩
          · rcases ih rows0 hrest r hr2 with ⟨e2, he2, hx⟩
            exact ⟨e2, List.mem_cons_of_mem _ he2, hx⟩
    · rw [hup] at h
      simp only [] at h
      rcases hrest : buildUpdateRows db ep rest with err | rows0
      · rw [hrest] at h; cases h
      · rw [hrest] at h
        simp only [Except.map] at h
        cases h
        rcases List.mem_cons.mp hr with rfl | hr2
        · exact ⟨e, List.mem_cons_self _ _, rfl, rfl, Or.inl ⟨p, hup, rfl⟩⟩
        · rcases ih rows0 hrest r hr2 with ⟨e2, he2, hx⟩
          exact ⟨e2, List.mem_cons_of_mem _ he2, hx⟩

theorem update_order_ok_items {db db' : Store} {oid : Nat} {payload : OrderUpdate}
    {res : Option OrderOut} {its : List OrderItemCreate}
    (h : update_order db oid payload = .ok (db', res))
    (hits : payload.items = some its)
    (hfound : (db.orders.find? (fun o => o.id == oid)).isSome) :
    ∃ rows, buildUpdateRows db
        (existingPriceOf (db.order_items.filter (fun it => it.order_id == oid)))
        (aggregateItems its) = .ok rows ∧
      db'.order_items = (db.order_items.filter (fun it => !(it.order_id == oid))) ++
        rows.enum.map (fun p =>
          ({ id := nextId (db.order_items.map (·.id)) + p.1, order_id := oid,
             product_id := p.2.1, quantity := p.2.2.1, unit_price := p.2.2.2,
             lot_id := none } : OrderItemRow)) := by
  unfold update_order at h
  rcases hf : db.orders.find? (fun o => o.id == oid) with _ | order0
  · rw [hf] at hfound; cases hfound
  · rw [hf] at h
    rw [hits] at h
    simp only [] at h
    rcases hb : buildUpdateRows db
        (existingPriceOf (db.order_items.filter (fun it => it.order_id == oid)))
        (aggregateItems its) with err | rows
    · rw [hb] at h
      simp only [Except.map] at h
      cases h
    · rw [hb] at h
      simp only [Except.map, Except.ok.injEq, Prod.mk.injEq] at h
      obtain ⟨rfl, -⟩ := h
      exact ⟨rows, rfl, rfl⟩

theorem existingPriceOf_some {olds : List OrderItemRow} {pid : Nat} {p : Rat}
    (h : existingPriceOf olds pid = some p) :
    ∃ old ∈ olds, old.product_id = pid ∧ old.unit_price = p := by
  unfold existingPriceOf at h
  rcases hg : (olds.filter (fun it => it.product_id == pid)).getLast? with _ | old
  · rw [hg] at h; cases h
  · rw [hg] at h
    have hmem : old ∈ olds.filter (fun it => it.product_id == pid) :=
      List.mem_of_mem_getLast? (by rw [hg]; rfl)
    refine ⟨old, List.mem_of_mem_filter hmem, ?_, ?_⟩
    · simpa using List.of_mem_filter hmem
    · exact (by simpa using h.symm : p = old.unit_price).symm

theorem existingPriceOf_none {olds : List OrderItemRow} {pid : Nat}
    (h : existingPriceOf olds pid = none) :
    ∀ old ∈ olds, old.product_id ≠ pid := by
  unfold existingPriceOf at h
  rcases hg : (olds.filter (fun it => it.product_id == pid)).getLast? with _ | old
  · intro old hold hpid
    have hmem : old ∈ olds.filter (fun it => it.product_id == pid) :=
      List.mem_filter.mpr ⟨hold, by simpa using hpid⟩
    rcases List.getLast?_eq_none_iff.mp hg with hnil
    rw [hnil] at hmem
    cases hmem
  · rw [hg] at h; cases h

/-- The items of one order, as stored. -/
def orderItemsOf (db : Store) (oid : Nat) : List OrderItemRow :=
  db.order_items.filter (fun it => it.order_id == oid)

/-- C3: when update_order is given an items list, the stored items of the
order are fully replaced by the aggregated payload (one item per distinct
product, summed quantities), and an aggregated entry without an explicit
price takes the previously existing snapshot price of that product when
the order had one before the deletion; the live Product price is used
only for products with no previous item on the order (and then the
product must have resolved, so its current price is the one stored). -/
theorem C3_update_order_items_replacement (db db' : Store) (oid : Nat)
    (payload : OrderUpdate) (res : Option OrderOut) (its : List OrderItemCreate)
    (h : update_order db oid payload = .ok (db', res))
    (hits : payload.items = some its)
    (hfound : (db.orders.find? (fun o => o.id == oid)).isSome) :
    ((orderItemsOf db' oid).map (·.product_id)).Nodup ∧
    (∀ it ∈ orderItemsOf db' oid, it.product_id ∈ its.map (·.product_id)) ∧
    (∀ x ∈ its, x.product_id ∈ (orderItemsOf db' oid).map (·.product_id)) ∧
    (∀ it ∈ orderItemsOf db' oid,
      it.quantity = sumQty it.product_id its ∧
      ((∃ p, lastNormPrice it.product_id its = some p ∧ it.unit_price = p) ∨
       (lastNormPrice it.product_id its = none ∧
        ((∃ old ∈ orderItemsOf db oid, old.product_id = it.product_id ∧
            it.unit_price = old.unit_price) ∨
         ((∀ old ∈ orderItemsOf db oid, old.product_id ≠ it.product_id) ∧
          ∃ prod, productById db it.product_id = some prod ∧
            it.unit_price = prod.unit_price))))) := by
  rcases update_order_ok_items h hits hfound with ⟨rows, hb, hitems⟩
  have htr : (orderItemsOf db' oid).map
      (fun it => (it.product_id, it.quantity, it.unit_price)) = rows := by
    unfold orderItemsOf
    rw [hitems, List.filter_append]
    have hrest : (db.order_items.filter (fun it => !(it.order_id == oid))).filter
        (fun it => it.order_id == oid) = [] := by
      rw [List.filter_eq_nil_iff]
      intro it hit
      have := List.of_mem_filter hit
      simp at this
      simp [this]
    have hnew : (rows.enum.map (fun p =>
        ({ id := nextId (db.order_items.map (·.id)) + p.1, order_id := oid,
           product_id := p.2.1, quantity := p.2.2.1, unit_price := p.2.2.2,
           lot_id := none } : OrderItemRow))).filter
        (fun it => it.order_id == oid) =
        rows.enum.map (fun p =>
        ({ id := nextId (db.order_items.map (·.id)) + p.1, order_id := oid,
           product_id := p.2.1, quantity := p.2.2.1, unit_price := p.2.2.2,
           lot_id := none } : OrderItemRow)) := by
      rw [List.filter_eq_self]
      intro it hit
      rcases List.mem_map.mp hit with ⟨p, -, rfl⟩
      simp
    rw [hrest, hnew, List.nil_append]
    exact triple_map_enum rows _ _
  have hkeys : (orderItemsOf db' oid).map (·.product_id) = rows.map (fun r => r.1) := by
    calc (orderItemsOf db' oid).map (·.product_id)
        = ((orderItemsOf db' oid).map
            (fun it => (it.product_id, it.quantity, it.unit_price))).map (fun t => t.1) := by
          rw [List.map_map]; rfl
      _ = rows.map (fun r => r.1) := by rw [htr]
  have haggkeys : rows.map (fun r => r.1) = (aggregateItems its).map (·.product_id) :=
    buildUpdateRows_keys db _ _ rows hb
  have hnodupagg : ((aggregateItems its).map (·.product_id)).Nodup := by
    have := aggFold_nodup its [] (by simp)
    simpa [aggregateItems] using this
  have hmemiff : ∀ pid, pid ∈ (aggregateItems its).map (·.product_id) ↔
      pid ∈ its.map (·.product_id) := by
    intro pid
    have := aggFold_keys_mem its [] pid
    simpa [aggregateItems] using this
  refine ⟨?_, ?_, ?_, ?_⟩
  · rw [hkeys, haggkeys]; exact hnodupagg
  · intro it hit
    have hm : it.product_id ∈ (orderItemsOf db' oid).map (·.product_id) :=
      List.mem_map_of_mem _ hit
    rw [hkeys, haggkeys] at hm
    exact (hmemiff _).mp hm
  · intro x hx
    rw [hkeys, haggkeys]
    exact (hmemiff _).mpr (List.mem_map_of_mem _ hx)
  · intro it hit
    have htrip : (it.product_id, it.quantity, it.unit_price) ∈ rows := by
      rw [← htr]; exact List.mem_map_of_mem _ hit
    rcases buildUpdateRows_mem db _ _ rows hb _ htrip with ⟨e, he, h1, h2, hcase⟩
    dsimp only at h1 h2 hcase
    have hlook : aggLookup e.product_id (aggregateItems its) = some e :=
      aggLookup_of_mem he hnodupagg
    have hchar := aggregateItems_lookup its e.product_id
    rcases hlf : lastFor e.product_id its with _ | x
    · rw [hlf] at hchar; rw [hchar] at hlook; cases hlook
    · rw [hlf] at hchar
      rw [hchar] at hlook
      have he2 := Option.some_inj.mp hlook
      have hq : e.quantity = sumQty e.product_id its := by rw [← he2]
      have hup : e.unit_price = normPrice x.unit_price := by rw [← he2]
      have hlnp : lastNormPrice it.product_id its = normPrice x.unit_price := by
        rw [h1, lastNormPrice, hlf]; rfl
      refine ⟨by rw [h2, hq, h1], ?_⟩
      rcases hcase with ⟨p, hep, hpr⟩ | ⟨hnone, p, hep, hpr⟩ | ⟨hnone, hepnone, prod, hprod, hpr⟩
      · left
        exact ⟨p, by rw [hlnp, ← hup, hep], hpr⟩
      · right
        refine ⟨by rw [hlnp, ← hup, hnone], Or.inl ?_⟩
        rcases existingPriceOf_some hep with ⟨old, hold, holdpid, holdp⟩
        exact ⟨old, by simpa [orderItemsOf] using hold, by rw [holdpid, h1],
          by rw [hpr, holdp]⟩
      · right
        refine ⟨by rw [hlnp, ← hup, hnone], Or.inr ⟨?_, prod, by rw [h1]; exact hprod, hpr⟩⟩
        intro old hold hpid
        exact existingPriceOf_none hepnone old (by simpa [orderItemsOf] using hold)
          (by rw [hpid, h1])

def dbC3 : Store :=
  { customers := [{ id := 1, name := "Alice" }],
    products := [{ id := 1, name := "Apples", unit := "weight", unit_price := 5 }],
    orders := [{ id := 1, customer_id := 1, delivery_date := ⟨2024, 1, 10⟩,
                 created_at := 0, applied_discount := 0, status := "created" }],
    order_items := [{ id := 1, order_id := 1, product_id := 1, quantity := 2,
                      unit_price := 7, lot_id := none }],
    lots := [], expenses := [], incomes := [] }

def upC3 : OrderUpdate :=
  { delivery_date := none,
    items := some [{ product_id := 1, quantity := 4, unit_price := none }],
    customer_id := none, applied_discount := none, status := none }

/-- C3 witness: the order's only item was snapshotted at 7 while the live
product price is 5; replacing the items with an unpriced line for the same
product keeps the snapshot price 7. -/
theorem C3_witness :
    ((orderItemsOf (okStore dbC3 (update_order dbC3 1 upC3)) 1).map (·.product_id)).Nodup ∧
    (∀ it ∈ orderItemsOf (okStore dbC3 (update_order dbC3 1 upC3)) 1,
       it.product_id ∈ [{ product_id := 1, quantity := 4, unit_price := none :
         OrderItemCreate }].map (·.product_id)) ∧
    (∀ x ∈ [{ product_id := 1, quantity := 4, unit_price := none : OrderItemCreate }],
       x.product_id ∈ (orderItemsOf (okStore dbC3 (update_order dbC3 1 upC3)) 1).map
         (·.product_id)) ∧
    (∀ it ∈ orderItemsOf (okStore dbC3 (update_order dbC3 1 upC3)) 1,
      it.quantity = sumQty it.product_id
        [{ product_id := 1, quantity := 4, unit_price := none : OrderItemCreate }] ∧
      ((∃ p, lastNormPrice it.product_id
          [{ product_id := 1, quantity := 4, unit_price := none : OrderItemCreate }] = some p ∧
          it.unit_price = p) ∨
       (lastNormPrice it.product_id
          [{ product_id := 1, quantity := 4, unit_price := none : OrderItemCreate }] = none ∧
        ((∃ old ∈ orderItemsOf dbC3 1, old.product_id = it.product_id ∧
            it.unit_price = old.unit_price) ∨
         ((∀ old ∈ orderItemsOf dbC3 1, old.product_id ≠ it.product_id) ∧
          ∃ prod, productById dbC3 it.product_id = some prod ∧
            it.unit_price = prod.unit_price))))) :=
  C3_update_order_items_replacement dbC3 (okStore dbC3 (update_order dbC3 1 upC3)) 1 upC3
    (okOrderOut (update_order dbC3 1 upC3))
    [{ product_id := 1, quantity := 4, unit_price := none }]
    (by with_unfolding_all rfl) rfl (by decide)

-- ---------------------------------------------------------------------------
-- C4: scalar-field update semantics of update_order
-- ---------------------------------------------------------------------------

/-- The scalar overwrite update_order applies to the found order row:
delivery_date, status and applied_discount when non-null; note that the
payload's customer_id is nowhere applied by the source. -/
def scalarUpdate (payload : OrderUpdate) (o : OrderRow) : OrderRow :=
  { o with
    delivery_date := payload.delivery_date.getD o.delivery_date,
    status := payload.status.getD o.status,
    applied_discount := payload.applied_discount.getD o.applied_discount }

theorem update_order_ok_orders {db db' : Store} {oid : Nat} {payload : OrderUpdate}
    {res : Option OrderOut} {o0 : OrderRow}
    (h : update_order db oid payload = .ok (db', res))
    (hf : db.orders.find? (fun o => o.id == oid) = some o0) :
    db'.orders = db.orders.map (fun o => if o.id = oid then scalarUpdate payload o0 else o) := by
  unfold update_order at h
  rw [hf] at h
  rcases hits : payload.items with _ | its
  · rw [hits] at h
    simp only [Except.ok.injEq, Prod.mk.injEq] at h
    obtain ⟨rfl, -⟩ := h
    rfl
  · rw [hits] at h
    simp only [] at h
    rcases hb : buildUpdateRows db
        (existingPriceOf (db.order_items.filter (fun it => it.order_id == oid)))
        (aggregateItems its) with err | rows
    · rw [hb] at h
      simp only [Except.map] at h
      cases h
    · rw [hb] at h
      simp only [Except.map, Except.ok.injEq, Prod.mk.injEq] at h
      obtain ⟨rfl, -⟩ := h
      rfl

/-- C4 (amended): update_order overwrites delivery_date, status and
applied_discount exactly when they are supplied non-null and leaves
omitted fields untouched, but the supplied customer_id is IGNORED: the
order keeps its previous customer_id. Rows of other orders are untouched. -/
theorem C4_scalar_updates (db db' : Store) (oid : Nat) (payload : OrderUpdate)
    (res : Option OrderOut) (o0 : OrderRow) (hwf : db.WF)
    (h : update_order db oid payload = .ok (db', res))
    (hmem : o0 ∈ db.orders) (hid : o0.id = oid) :
    (∃ o1 ∈ db'.orders, o1.id = oid ∧
       o1.delivery_date = payload.delivery_date.getD o0.delivery_date ∧
       o1.status = payload.status.getD o0.status ∧
       o1.applied_discount = payload.applied_discount.getD o0.applied_discount ∧
       o1.customer_id = o0.customer_id ∧
       o1.created_at = o0.created_at) ∧
    (∀ o ∈ db.orders, o.id ≠ oid → o ∈ db'.orders) := by
  have hf : db.orders.find? (fun o => o.id == oid) = some o0 := by
    rw [← hid]
    exact find?_key_unique hwf.2.2.1 hmem
  have horders := update_order_ok_orders h hf
  constructor
  · refine ⟨scalarUpdate payload o0, ?_, by simp [scalarUpdate, hid],
      by simp [scalarUpdate], by simp [scalarUpdate], by simp [scalarUpdate],
      by simp [scalarUpdate], by simp [scalarUpdate]⟩
    rw [horders]
    have := List.mem_map_of_mem
      (fun o => if o.id = oid then scalarUpdate payload o0 else o) hmem
    simpa [hid] using this
  · intro o ho hne
    rw [horders]
    have := List.mem_map_of_mem
      (fun o => if o.id = oid then scalarUpdate payload o0 else o) ho
    simpa [hne] using this

def dbC4 : Store :=
  { customers := [{ id := 1, name := "Alice" }, { id := 2, name := "Bo" }],
    products := [{ id := 1, name := "Apples", unit := "weight", unit_price := 5 }],
    orders := [{ id := 1, customer_id := 1, delivery_date := ⟨2024, 1, 10⟩,
                 created_at := 0, applied_discount := 0, status := "created" }],
    order_items := [], lots := [], expenses := [], incomes := [] }

def upC4 : OrderUpdate :=
  { delivery_date := none, items := none, customer_id := some 2,
    applied_discount := none, status := none }

/-- C4 counterexample: customer 2 exists and the payload supplies
customer_id = 2, yet after the update the order still points at customer
1 — update_order never applies the payload's customer_id. -/
theorem C4_counterexample :
    ((okStore dbC4 (update_order dbC4 1 upC4)).orders.map (fun o => o.customer_id)) = [1] ∧
    (1 : Nat) ≠ 2 := by
  constructor
  · with_unfolding_all rfl
  · decide

def upC4b : OrderUpdate :=
  { delivery_date := none, items := none, customer_id := some 2,
    applied_discount := some 25, status := some "delivered" }

/-- C4 witness: supplying status, applied_discount and customer_id
non-null overwrites the first two, keeps the omitted delivery_date, and
leaves customer_id at its previous value. -/
theorem C4_witness :
    (∃ o1 ∈ (okStore dbC4 (update_order dbC4 1 upC4b)).orders, o1.id = 1 ∧
       o1.delivery_date = (none : Option PyDate).getD ⟨2024, 1, 10⟩ ∧
       o1.status = (some "delivered").getD "created" ∧
       o1.applied_discount = (some (25 : Rat)).getD 0 ∧
       o1.customer_id = 1 ∧
       o1.created_at = 0) ∧
    (∀ o ∈ dbC4.orders, o.id ≠ 1 → o ∈ (okStore dbC4 (update_order dbC4 1 upC4b)).orders) :=
  C4_scalar_updates dbC4 (okStore dbC4 (update_order dbC4 1 upC4b)) 1 upC4b
    (okOrderOut (update_order dbC4 1 upC4b))
    { id := 1, customer_id := 1, delivery_date := ⟨2024, 1, 10⟩,
      created_at := 0, applied_discount := 0, status := "created" }
    (by decide) (by with_unfolding_all rfl) (by decide) rfl

-- ---------------------------------------------------------------------------
-- C5: explicit lot association is exclusive and exact
-- ---------------------------------------------------------------------------

theorem mem_dedup {a : Nat} {l : List Nat} : a ∈ dedup l ↔ a ∈ l := by
  induction l with
  | nil => simp [dedup]
  | cons x rest ih =>
    by_cases hx : x ∈ dedup rest
    · simp only [dedup, if_pos hx, List.mem_cons]
      rw [ih]
      constructor
      · exact Or.inr
      · rintro (rfl | hm)
        · exact ih.mp hx
        · exact hm
    · simp only [dedup, if_neg hx, List.mem_cons, ih]

theorem dedup_isEmpty_iff {l : List Nat} : (dedup l).isEmpty = true ↔ l = [] := by
  constructor
  · intro h
    rw [List.isEmpty_iff] at h
    rcases l with _ | ⟨a, rest⟩
    · rfl
    · have hmem : a ∈ dedup (a :: rest) := mem_dedup.mpr (List.mem_cons_self a rest)
      rw [h] at hmem
      cases hmem
  · rintro rfl
    rfl

/-- The per-item effect of the detach-then-attach write. -/
def assocStep (lot : Nat) (targets : List Nat) (it : OrderItemRow) : OrderItemRow :=
  let d := if it.lot_id == some lot then { it with lot_id := none } else it
  if targets.isEmpty then d
  else if targets.contains d.id then { d with lot_id := some lot } else d

theorem assocStep_key (lot : Nat) (targets : List Nat) (it : OrderItemRow) :
    (assocStep lot targets it).id = it.id ∧
    (assocStep lot targets it).order_id = it.order_id ∧
    (assocStep lot targets it).product_id = it.product_id := by
  unfold assocStep
  by_cases hx : it.lot_id == some lot <;>
    by_cases ht : targets.isEmpty <;>
    by_cases hc : it.id ∈ targets <;>
    simp [hx, ht, hc]

theorem assocStep_lot (lot : Nat) (targets : List Nat) (it : OrderItemRow) :
    ((assocStep lot targets it).lot_id = some lot) ↔ it.id ∈ targets := by
  unfold assocStep
  by_cases hx : it.lot_id == some lot
  · by_cases ht : targets.isEmpty
    · rcases targets with _ | _
      · simp [hx]
      · cases ht
    · by_cases hc : it.id ∈ targets <;> simp [hx, ht, hc]
  · by_cases ht : targets.isEmpty
    · rcases targets with _ | _
      · simp only [hx, Bool.false_eq_true, if_false, List.isEmpty_nil, if_pos]
        constructor
        · intro hl
          exact absurd (by simp [hl] : (it.lot_id == some lot) = true) (by simpa using hx)
        · intro hc; cases hc
      · cases ht
    · by_cases hc : it.id ∈ targets
      · simp [hx, ht, hc]
      · simp only [hx, Bool.false_eq_true, if_false, ht, hc, iff_false]
        simp only [show targets.contains it.id = false by simpa using hc,
          Bool.false_eq_true, if_false]
        intro hl
        exact absurd (by simp [hl] : (it.lot_id == some lot) = true) (by simpa using hx)

theorem assocStep_eq_self {lot : Nat} {targets : List Nat} {it : OrderItemRow}
    (h1 : it.id ∉ targets) (h2 : (it.lot_id == some lot) = false) :
    assocStep lot targets it = it := by
  unfold assocStep
  by_cases ht : targets.isEmpty <;> simp [ht, h1, h2]

theorem assocStep_detach {lot : Nat} {targets : List Nat} {it : OrderItemRow}
    (h1 : it.id ∉ targets) (h2 : it.lot_id = some lot) :
    assocStep lot targets it = { it with lot_id := none } := by
  unfold assocStep
  by_cases ht : targets.isEmpty <;> simp [ht, h1, h2]

theorem applyTargets_items (db : Store) (lot : Nat) (targets : List Nat) :
    (applyTargets db lot targets).order_items =
    db.order_items.map (assocStep lot targets) := by
  unfold applyTargets assocStep
  by_cases ht : targets.isEmpty
  · rcases targets with _ | _
    · simp
    · cases ht
  · simp only [ht, Bool.false_eq_true, if_false, List.map_map]
    rfl

/-- C5: after a successful explicit association, an item carries this lot
exactly when its id was requested; every requested id is attached; an item
previously pointing at this lot but not requested ends with lot_id = none;
and an item that was neither requested nor previously in this lot is
unchanged. (lot_id is single-valued, so each item belongs to at most one
lot.) -/
theorem C5_lot_association_exclusive (db db' : Store) (lot : Nat)
    (order_id : Option Nat) (ids : List Nat)
    (h : apply_lot_associations db lot order_id (some ids) = .ok db') :
    (∀ it ∈ db'.order_items, (it.lot_id = some lot ↔ it.id ∈ ids)) ∧
    (∀ i ∈ ids, ∃ it ∈ db'.order_items, it.id = i ∧ it.lot_id = some lot) ∧
    (∀ it ∈ db.order_items, it.lot_id = some lot → it.id ∉ ids →
       { it with lot_id := none } ∈ db'.order_items) ∧
    (∀ it ∈ db.order_items, it.id ∉ ids → it.lot_id ≠ some lot →
       it ∈ db'.order_items) := by
  have h2 : applyAssocResolved db lot order_id (some ids) = .ok db' := by
    unfold apply_lot_associations at h
    rcases order_id with _ | o
    · exact h
    · simp only [] at h
      by_cases hf : (db.orders.find? (fun x => x.id == o)).isNone
      · rw [if_pos hf] at h; cases h
      · rw [if_neg hf] at h; exact h
  unfold applyAssocResolved at h2
  simp only [] at h2
  by_cases hemp : (dedup ids).isEmpty
  · have hids : ids = [] := dedup_isEmpty_iff.mp hemp
    rw [if_pos hemp] at h2
    have hdb : applyTargets db lot [] = db' := (Except.ok.injEq _ _).mp h2
    subst hdb
    subst hids
    refine ⟨?_, by simp, ?_, ?_⟩
    · intro it hit
      rw [applyTargets_items] at hit
      rcases List.mem_map.mp hit with ⟨x, -, rfl⟩
      rw [assocStep_lot]
      simp
    · intro it hit hl hni
      rw [applyTargets_items]
      have hres := @assocStep_detach lot ([] : List Nat) it (by simp) hl
      rw [← hres]
      exact List.mem_map_of_mem _ hit
    · intro it hit hni hnl
      rw [applyTargets_items]
      have hres := @assocStep_eq_self lot ([] : List Nat) it (by simp)
        (by simpa using hnl)
      rw [← hres]
      exact List.mem_map_of_mem _ hit
  · rw [if_neg hemp] at h2
    set found := db.order_items.filter (fun it =>
      (dedup ids).contains it.id &&
      (match order_id with
       | some o => it.order_id == o
       | none => true)) with hfounddef
    set fids := found.map (·.id) with hfidsdef
    by_cases hmiss : ((dedup ids).filter (fun i => !(fids.contains i))).isEmpty
    · rw [if_pos hmiss] at h2
      have hdb : applyTargets db lot fids = db' := (Except.ok.injEq _ _).mp h2
      subst hdb
      have hsub : ∀ i ∈ fids, i ∈ ids := by
        intro i hi
        rcases List.mem_map.mp hi with ⟨y, hy, rfl⟩
        have h3 := List.of_mem_filter hy
        simp only [Bool.and_eq_true] at h3
        exact mem_dedup.mp (by simpa using h3.1)
      have hall : ∀ i ∈ ids, i ∈ fids := by
        intro i hi
        have hided : i ∈ dedup ids := mem_dedup.mpr hi
        by_contra hni
        have hmm : i ∈ (dedup ids).filter (fun i => !(fids.contains i)) :=
          List.mem_filter.mpr ⟨hided, by simpa using hni⟩
        rw [List.isEmpty_iff] at hmiss
        rw [hmiss] at hmm
        cases hmm
      refine ⟨?_, ?_, ?_, ?_⟩
      · intro it hit
        rw [applyTargets_items] at hit
        rcases List.mem_map.mp hit with ⟨x, -, rfl⟩
        rw [assocStep_lot, (assocStep_key lot fids x).1]
        exact ⟨fun hm => hsub _ hm, fun hm => hall _ hm⟩
      · intro i hi
        have hif : i ∈ fids := hall i hi
        rcases List.mem_map.mp hif with ⟨y, hy, rfl⟩
        refine ⟨assocStep lot fids y, ?_, (assocStep_key lot fids y).1, ?_⟩
        · rw [applyTargets_items]
          exact List.mem_map_of_mem _ (List.mem_of_mem_filter hy)
        · rw [assocStep_lot]
          exact hif
      · intro it hit hl hni
        rw [applyTargets_items]
        have hnif : it.id ∉ fids := fun hm => hni (hsub _ hm)
        have hres := @assocStep_detach lot fids it hnif hl
        rw [← hres]
        exact List.mem_map_of_mem _ hit
      · intro it hit hni hnl
        rw [applyTargets_items]
        have hnif : it.id ∉ fids := fun hm => hni (hsub _ hm)
        have hres := @assocStep_eq_self lot fids it hnif (by simpa using hnl)
        rw [← hres]
        exact List.mem_map_of_mem _ hit
    · rw [if_neg hmiss] at h2
      cases h2

/-- The committed store of a lot-association call. -/
def okStoreL (db : Store) : Except DomainError Store → Store
  | .ok s => s
  | .error _ => db

def dbC5 : Store :=
  { customers := [{ id := 1, name := "Alice" }],
    products := [{ id := 1, name := "Apples", unit := "weight", unit_price := 5 }],
    orders := [{ id := 1, customer_id := 1, delivery_date := ⟨2024, 1, 10⟩,
                 created_at := 0, applied_discount := 0, status := "created" }],
    order_items :=
      [{ id := 1, order_id := 1, product_id := 1, quantity := 1, unit_price := 5,
         lot_id := some 7 },
       { id := 2, order_id := 1, product_id := 2, quantity := 1, unit_price := 5,
         lot_id := some 7 },
       { id := 3, order_id := 1, product_id := 3, quantity := 1, unit_price := 5,
         lot_id := some 7 },
       { id := 4, order_id := 1, product_id := 4, quantity := 1, unit_price := 5,
         lot_id := none }],
    lots := [{ id := 7, lot_date := ⟨2024, 1, 1⟩, name := "20240101 A",
               location := "A", description := none }],
    expenses := [], incomes := [] }

/-- C5 witness: lot 7 holds items 1, 2, 3; applying the explicit set
2, 3, 4 leaves lot 7 holding exactly 2, 3, 4 and item 1 (previously in
lot 7 but not targeted) ends with lot_id = none. -/
theorem C5_witness :
    (∀ it ∈ (okStoreL dbC5 (apply_lot_associations dbC5 7 none (some [2, 3, 4]))).order_items,
       (it.lot_id = some 7 ↔ it.id ∈ [2, 3, 4])) ∧
    (∀ i ∈ [2, 3, 4], ∃ it ∈ (okStoreL dbC5
        (apply_lot_associations dbC5 7 none (some [2, 3, 4]))).order_items,
       it.id = i ∧ it.lot_id = some 7) ∧
    (∀ it ∈ dbC5.order_items, it.lot_id = some 7 → it.id ∉ [2, 3, 4] →
       { it with lot_id := none } ∈
         (okStoreL dbC5 (apply_lot_associations dbC5 7 none (some [2, 3, 4]))).order_items) ∧
    (∀ it ∈ dbC5.order_items, it.id ∉ [2, 3, 4] → it.lot_id ≠ some 7 →
       it ∈ (okStoreL dbC5 (apply_lot_associations dbC5 7 none (some [2, 3, 4]))).order_items) :=
  C5_lot_association_exclusive dbC5
    (okStoreL dbC5 (apply_lot_associations dbC5 7 none (some [2, 3, 4]))) 7 none [2, 3, 4]
    (by with_unfolding_all rfl)

-- ---------------------------------------------------------------------------
-- C6: errors are raised before any write takes effect
-- ---------------------------------------------------------------------------

theorem buildCreateRows_error (db : Store) :
    ∀ (agg : List AggEntry) (err : DomainError),
      buildCreateRows db agg = .error err →
      ∃ pid, err = .productNotFound pid ∧ pid ∈ agg.map (·.product_id) ∧
        productById db pid = none := by
  intro agg
  induction agg with
  | nil =>
    intro err h
    simp only [buildCreateRows] at h
    cases h
  | cons e rest ih =>
    intro err h
    simp only [buildCreateRows] at h
    rcases hfind : db.products.find? (fun p => p.id == e.product_id) with _ | prod
    · rw [hfind] at h
      cases h
      exact ⟨e.product_id, rfl, by simp, by simpa [productById] using hfind⟩
    · rw [hfind] at h
      rcases hrest : buildCreateRows db rest with err2 | rows0
      · rw [hrest] at h
        simp only [Except.map] at h
        cases h
        rcases ih _ hrest with ⟨pid, hp1, hp2, hp3⟩
        exact ⟨pid, hp1, by simp [hp2], hp3⟩
      · rw [hrest] at h
        simp only [Except.map] at h
        cases h

theorem buildUpdateRows_error (db : Store) (ep : Nat → Option Rat) :
    ∀ (agg : List AggEntry) (err : DomainError),
      buildUpdateRows db ep agg = .error err →
      ∃ pid, err = .productNotFound pid ∧ pid ∈ agg.map (·.product_id) ∧
        productById db pid = none ∧ ep pid = none := by
  intro agg
  induction agg with
  | nil =>
    intro err h
    simp only [buildUpdateRows] at h
    cases h
  | cons e rest ih =>
    intro err h
    simp only [buildUpdateRows] at h
    rcases hup : e.unit_price with _ | p
    · rw [hup] at h
      simp only [] at h
      rcases hep : ep e.product_id with _ | p
      · rw [hep] at h
        rcases hfind : db.products.find? (fun pr => pr.id == e.product_id) with _ | prod
        · rw [hfind] at h
          cases h
          exact ⟨e.product_id, rfl, by simp, by simpa [productById] using hfind, hep⟩
        · rw [hfind] at h
          rcases hrest : buildUpdateRows db ep rest with err2 | rows0
          · rw [hrest] at h
            simp only [Except.map] at h
            cases h
            rcases ih _ hrest with ⟨pid, h1, h2, h3, h4⟩
            exact ⟨pid, h1, by simp [h2], h3, h4⟩
          · rw [hrest] at h
            simp only [Except.map] at h
            cases h
      · rw [hep] at h
        rcases hrest : buildUpdateRows db ep rest with err2 | rows0
        · rw [hrest] at h
          simp only [Except.map] at h
          cases h
          rcases ih _ hrest with ⟨pid, h1, h2, h3, h4⟩
          exact ⟨pid, h1, by simp [h2], h3, h4⟩
        · rw [hrest] at h
          simp only [Except.map] at h
          cases h
    · rw [hup] at h
      simp only [] at h
      rcases hrest : buildUpdateRows db ep rest with err2 | rows0
      · rw [hrest] at h
        simp only [Except.map] at h
        cases h
        rcases ih _ hrest with ⟨pid, h1, h2, h3, h4⟩
        exact ⟨pid, h1, by simp [h2], h3, h4⟩
      · rw [hrest] at h
        simp only [Except.map] at h
        cases h

theorem create_order_error {db : Store} {payload : OrderCreate} {now : Int}
    {e : DomainError} (h : create_order db payload now = .error e) :
    (e = .customerNotFound payload.customer_id ∧
     (db.customers.find? (fun c => c.id == payload.customer_id)).isNone) ∨
    (∃ pid, e = .productNotFound pid ∧ pid ∈ payload.items.map (·.product_id) ∧
      productById db pid = none) := by
  unfold create_order at h
  by_cases hc : (db.customers.find? (fun c => c.id == payload.customer_id)).isNone
  · rw [if_pos hc] at h
    cases h
    exact Or.inl ⟨rfl, hc⟩
  · rw [if_neg hc] at h
    rcases hb : buildCreateRows db (aggregateItems payload.items) with err | rows
    · rw [hb] at h
      cases h
      rcases buildCreateRows_error db _ _ hb with ⟨pid, h1, h2, h3⟩
      refine Or.inr ⟨pid, h1, ?_, h3⟩
      have := aggFold_keys_mem payload.items [] pid
      simp only [aggregateItems] at h2
      simpa using this.mp (by simpa using h2)
    · rw [hb] at h
      cases h

theorem update_order_error {db : Store} {oid : Nat} {payload : OrderUpdate}
    {e : DomainError} (h : update_order db oid payload = .error e) :
    ∃ its, payload.items = some its ∧
      ∃ pid, e = .productNotFound pid ∧ pid ∈ its.map (·.product_id) ∧
        productById db pid = none ∧
        (∀ old ∈ orderItemsOf db oid, old.product_id ≠ pid) := by
  unfold update_order at h
  rcases hf : db.orders.find? (fun o => o.id == oid) with _ | order0
  · rw [hf] at h; cases h
  · rw [hf] at h
    rcases hits : payload.items with _ | its
    · rw [hits] at h
      cases h
    · rw [hits] at h
      simp only [] at h
      rcases hb : buildUpdateRows db
          (existingPriceOf (db.order_items.filter (fun it => it.order_id == oid)))
          (aggregateItems its) with err | rows
      · rw [hb] at h
        simp only [Except.map] at h
        cases h
        rcases buildUpdateRows_error db _ _ _ hb with ⟨pid, h1, h2, h3, h4⟩
        refine ⟨its, rfl, pid, h1, ?_, h3, ?_⟩
        · have := aggFold_keys_mem its [] pid
          simp only [aggregateItems] at h2
          simpa using this.mp (by simpa using h2)
        · intro old hold
          exact existingPriceOf_none h4 old (by simpa [orderItemsOf] using hold)
      · rw [hb] at h
        simp only [Except.map] at h
        cases h

/-- The optional order scoping of an explicit lot-association request. -/
def scopeMatch (oid : Option Nat) (it : OrderItemRow) : Prop :=
  match oid with
  | some o => it.order_id = o
  | none => True

theorem apply_lot_associations_error {db : Store} {lot : Nat}
    {order_id : Option Nat} {ids : List Nat} {e : DomainError}
    (h : apply_lot_associations db lot order_id (some ids) = .error e) :
    (∃ o, order_id = some o ∧ e = .orderNotFound o ∧
      (db.orders.find? (fun x => x.id == o)).isNone) ∨
    (∃ missing, e = .orderItemsNotFound missing ∧ missing ≠ [] ∧
      ∀ i, i ∈ missing ↔ (i ∈ ids ∧
        ¬ ∃ it ∈ db.order_items, it.id = i ∧ scopeMatch order_id it)) := by
  have hsplit : (∃ o, order_id = some o ∧ e = .orderNotFound o ∧
      (db.orders.find? (fun x => x.id == o)).isNone) ∨
      applyAssocResolved db lot order_id (some ids) = .error e := by
    unfold apply_lot_associations at h
    rcases order_id with _ | o
    · exact Or.inr h
    · simp only [] at h
      by_cases hf : (db.orders.find? (fun x => x.id == o)).isNone
      · rw [if_pos hf] at h
        cases h
        exact Or.inl ⟨o, rfl, rfl, hf⟩
      · rw [if_neg hf] at h
        exact Or.inr h
  rcases hsplit with hord | h2
  · exact Or.inl hord
  · right
    unfold applyAssocResolved at h2
    simp only [] at h2
    by_cases hemp : (dedup ids).isEmpty
    · rw [if_pos hemp] at h2; cases h2
    · rw [if_neg hemp] at h2
      set found := db.order_items.filter (fun it =>
        (dedup ids).contains it.id &&
        (match order_id with
         | some o => it.order_id == o
         | none => true)) with hfounddef
      set fids := found.map (·.id) with hfidsdef
      by_cases hmiss : ((dedup ids).filter (fun i => !(fids.contains i))).isEmpty
      · rw [if_pos hmiss] at h2; cases h2
      · rw [if_neg hmiss] at h2
        cases h2
        refine ⟨sortNat ((dedup ids).filter (fun i => !(fids.contains i))), rfl, ?_, ?_⟩
        · intro hnil
          have : ((dedup ids).filter (fun i => !(fids.contains i))).length = 0 := by
            have hlen := @length_sortByLe Nat (fun a b => decide (a ≤ b))
              ((dedup ids).filter (fun i => !(fids.contains i)))
            rw [show sortByLe (fun a b => decide (a ≤ b))
                ((dedup ids).filter (fun i => !(fids.contains i))) =
                sortNat ((dedup ids).filter (fun i => !(fids.contains i))) from rfl,
              hnil] at hlen
            simpa using hlen.symm
          rw [List.length_eq_zero] at this
          rw [List.isEmpty_iff] at hmiss
          exact hmiss this
        · intro i
          unfold sortNat
          rw [mem_sortByLe, List.mem_filter]
          constructor
          · rintro ⟨hded, hnc⟩
            refine ⟨mem_dedup.mp hded, ?_⟩
            rintro ⟨it, hit, hid, hscope⟩
            have hfound : it ∈ found := by
              rw [hfounddef]
              refine List.mem_filter.mpr ⟨hit, ?_⟩
              simp only [Bool.and_eq_true]
              constructor
              · rw [hid]; simpa using hded
              · rcases order_id with _ | o
                · rfl
                · simpa [scopeMatch] using hscope
            have : i ∈ fids := by
              rw [hfidsdef]
              rw [← hid]
              exact List.mem_map_of_mem _ hfound
            simp [this] at hnc
          · rintro ⟨hin, hnot⟩
            refine ⟨mem_dedup.mpr hin, ?_⟩
            simp only [Bool.not_eq_true']
            by_cases hc : fids.contains i
            · exfalso
              have : i ∈ fids := by simpa using hc
              rw [hfidsdef] at this
              rcases List.mem_map.mp this with ⟨y, hy, rfl⟩
              rw [hfounddef] at hy
              have hy2 := List.of_mem_filter hy
              simp only [Bool.and_eq_true] at hy2
              refine hnot ⟨y, List.mem_of_mem_filter hy, rfl, ?_⟩
              rcases order_id with _ | o
              · exact trivial
              · simpa [scopeMatch] using hy2.2
            · simpa using hc

/-- C6: a ReferenceNotFound failure (unknown customer or product in
create_order, unknown product in an update_order item replacement,
unknown order or order-item ids in a lot association) aborts the
transaction, so the committed store after the failure is the store before
the call; the errors occur exactly for missing references, and for lot
associations the error carries exactly the requested order-item ids that
did not resolve. -/
theorem C6_reference_errors_atomic :
    (∀ (db : Store) (p : OrderCreate) (now : Int) (e : DomainError),
       create_order db p now = .error e → okStore db (create_order db p now) = db) ∧
    (∀ (db : Store) (oid : Nat) (p : OrderUpdate) (e : DomainError),
       update_order db oid p = .error e → okStore db (update_order db oid p) = db) ∧
    (∀ (db : Store) (lot : Nat) (oid : Option Nat) (ids : Option (List Nat))
       (e : DomainError),
       apply_lot_associations db lot oid ids = .error e →
       okStoreL db (apply_lot_associations db lot oid ids) = db) ∧
    (∀ (db : Store) (p : OrderCreate) (now : Int) (e : DomainError),
       create_order db p now = .error e →
       (e = .customerNotFound p.customer_id ∧
        (db.customers.find? (fun c => c.id == p.customer_id)).isNone) ∨
       (∃ pid, e = .productNotFound pid ∧ pid ∈ p.items.map (·.product_id) ∧
         productById db pid = none)) ∧
    (∀ (db : Store) (oid : Nat) (p : OrderUpdate) (e : DomainError),
       update_order db oid p = .error e →
       ∃ its, p.items = some its ∧
         ∃ pid, e = .productNotFound pid ∧ pid ∈ its.map (·.product_id) ∧
           productById db pid = none ∧
           (∀ old ∈ orderItemsOf db oid, old.product_id ≠ pid)) ∧
    (∀ (db : Store) (lot : Nat) (oid : Option Nat) (ids : List Nat) (e : DomainError),
       apply_lot_associations db lot oid (some ids) = .error e →
       (∃ o, oid = some o ∧ e = .orderNotFound o ∧
         (db.orders.find? (fun x => x.id == o)).isNone) ∨
       (∃ missing, e = .orderItemsNotFound missing ∧ missing ≠ [] ∧
         ∀ i, i ∈ missing ↔ (i ∈ ids ∧
           ¬ ∃ it ∈ db.order_items, it.id = i ∧ scopeMatch oid it))) := by
  refine ⟨?_, ?_, ?_, ?_, ?_, ?_⟩
  · intro db p now e h; rw [h]; rfl
  · intro db oid p e h; rw [h]; rfl
  · intro db lot oid ids e h; rw [h]; rfl
  · intro db p now e h; exact create_order_error h
  · intro db oid p e h; exact update_order_error h
  · intro db lot oid ids e h; exact apply_lot_associations_error h

/-- C6 witness: requesting items 2, 9, 8, 9 on a store whose only items
are 1-4 fails with exactly the sorted missing ids 8, 9 and leaves the
committed store unchanged. -/
theorem C6_witness :
    okStoreL dbC5 (apply_lot_associations dbC5 7 none (some [2, 9, 8, 9])) = dbC5 ∧
    ((∃ o, (none : Option Nat) = some o ∧
        (DomainError.orderItemsNotFound [8, 9]) = .orderNotFound o ∧
        (dbC5.orders.find? (fun x => x.id == o)).isNone) ∨
     (∃ missing, (DomainError.orderItemsNotFound [8, 9]) = .orderItemsNotFound missing ∧
        missing ≠ [] ∧
        ∀ i, i ∈ missing ↔ (i ∈ [2, 9, 8, 9] ∧
          ¬ ∃ it ∈ dbC5.order_items, it.id = i ∧ scopeMatch none it))) :=
  ⟨C6_reference_errors_atomic.2.2.1 dbC5 7 none (some [2, 9, 8, 9])
     (.orderItemsNotFound [8, 9]) (by with_unfolding_all rfl),
   C6_reference_errors_atomic.2.2.2.2.2 dbC5 7 none [2, 9, 8, 9]
     (.orderItemsNotFound [8, 9]) (by with_unfolding_all rfl)⟩

-- ---------------------------------------------------------------------------
-- C7: cashflow report
-- ---------------------------------------------------------------------------

theorem perm_insertLe (le : α → α → Bool) (x : α) (l : List α) :
    (insertLe le x l).Perm (x :: l) := by
  induction l with
  | nil => simp [insertLe]
  | cons y ys ih =>
    by_cases h : le x y = true
    · simp [insertLe, h]
    · simp only [insertLe, h, Bool.false_eq_true, if_false]
      exact (ih.cons y).trans (List.Perm.swap x y ys)

theorem perm_sortByLe (le : α → α → Bool) (l : List α) :
    (sortByLe le l).Perm l := by
  induction l with
  | nil => simp [sortByLe]
  | cons x xs ih =>
    exact (perm_insertLe le x (sortByLe le xs)).trans (ih.cons x)

theorem sum_map_sortByLe (le : α → α → Bool) (f : α → Rat) (l : List α) :
    ((sortByLe le l).map f).sum = (l.map f).sum :=
  List.Perm.sum_eq (List.Perm.map f (perm_sortByLe le l))

def dbC7 : Store :=
  { customers := [{ id := 1, name := "Alice" }],
    products := [{ id := 1, name := "Apples", unit := "weight", unit_price := 5 }],
    orders :=
      [{ id := 1, customer_id := 1, delivery_date := ⟨2024, 1, 10⟩,
         created_at := 0, applied_discount := 0, status := "delivered" },
       { id := 2, customer_id := 1, delivery_date := ⟨2024, 1, 12⟩,
         created_at := 0, applied_discount := 0, status := "delivered" }],
    order_items := [{ id := 1, order_id := 1, product_id := 1, quantity := 1,
                      unit_price := 1006/1000, lot_id := none }],
    lots := [],
    expenses := [{ id := 1, category_id := 1, timestamp := ⟨2024, 1, 15⟩,
                   amount := 3/1000, note := none }],
    incomes := [] }

def reqC7 : CashflowRequest :=
  { start_date := ⟨2024, 1, 1⟩, end_date := ⟨2024, 1, 31⟩, include_incomes := false }

/-- C7 counterexample: a store with a delivered in-window order holding a
sub-cent line amount (1.006), a second delivered in-window order with no
items, and an in-window expense of 0.003. The response's net (1.00)
differs from entries_total - expenses_total (1.01 - 0.00), and the
item-less delivered order 2 appears in no entry. -/
theorem C7_counterexample :
    ((report_cashflow dbC7 reqC7).net ≠
      (report_cashflow dbC7 reqC7).entries_total -
        (report_cashflow dbC7 reqC7).expenses_total) ∧
    (dbC7.orders.any (fun o => o.id == 2 && o.status == "delivered" &&
       inWindow reqC7.start_date reqC7.end_date o.delivery_date)) = true ∧
    (∀ en ∈ (report_cashflow dbC7 reqC7).entries, en.order_id ≠ 2) := by
  with_unfolding_all decide

/-- C7 (amended): the entries are exactly the delivered, in-window orders
that have at least one item (the inner join drops item-less orders), each
with the discount-adjusted sum of its line amounts; incomes in the window
enter entries_total only when requested; expenses_total is the rounded
sum of in-window expenses; and net is round2 applied to the difference of
the UNROUNDED totals, which can differ from the difference of the rounded
response fields by a cent. -/
theorem C7_cashflow (db : Store) (req : CashflowRequest) :
    (∀ o ∈ db.orders,
       (o.status = "delivered" ∧
        inWindow req.start_date req.end_date o.delivery_date = true ∧
        orderItemsOf db o.id ≠ []) →
       ∃ en ∈ (report_cashflow db req).entries, en.order_id = o.id ∧
         en.date = o.delivery_date ∧ en.amount = (orderLineAmounts db o).sum) ∧
    (∀ en ∈ (report_cashflow db req).entries, ∃ o ∈ db.orders, en.order_id = o.id ∧
       o.status = "delivered" ∧
       inWindow req.start_date req.end_date o.delivery_date = true ∧
       orderItemsOf db o.id ≠ [] ∧ en.amount = (orderLineAmounts db o).sum) ∧
    (report_cashflow db req).entries_total =
      round2 ((((report_cashflow db req).entries.map (·.amount)).sum) +
        (if req.include_incomes then
          ((db.incomes.filter (fun i =>
            inWindow req.start_date req.end_date i.timestamp)).map (·.amount)).sum
         else 0)) ∧
    (report_cashflow db req).expenses_total =
      round2 (((db.expenses.filter (fun x =>
        inWindow req.start_date req.end_date x.timestamp)).map (·.amount)).sum) ∧
    (report_cashflow db req).net =
      round2 (((((report_cashflow db req).entries.map (·.amount)).sum) +
        (if req.include_incomes then
          ((db.incomes.filter (fun i =>
            inWindow req.start_date req.end_date i.timestamp)).map (·.amount)).sum
         else 0)) -
        ((db.expenses.filter (fun x =>
          inWindow req.start_date req.end_date x.timestamp)).map (·.amount)).sum) := by
  refine ⟨?_, ?_, ?_, ?_, ?_⟩
  · intro o ho ⟨hst, hin, hne⟩
    have hgrp : o ∈ db.orders.filter (fun o =>
        inWindow req.start_date req.end_date o.delivery_date && o.status == "delivered" &&
        !(db.order_items.filter (fun it => it.order_id == o.id)).isEmpty) := by
      refine List.mem_filter.mpr ⟨ho, ?_⟩
      simp only [Bool.and_eq_true]
      refine ⟨⟨hin, by simpa using hst⟩, ?_⟩
      simp only [Bool.not_eq_true']
      rw [← Bool.not_eq_true, List.isEmpty_iff]
      exact hne
    have hsorted : o ∈ sortByLe
        (fun a b => dateIdLe a.delivery_date a.id b.delivery_date b.id)
        (db.orders.filter (fun o =>
          inWindow req.start_date req.end_date o.delivery_date && o.status == "delivered" &&
          !(db.order_items.filter (fun it => it.order_id == o.id)).isEmpty)) :=
      mem_sortByLe.mpr hgrp
    exact ⟨{ order_id := o.id, date := o.delivery_date,
             amount := (orderLineAmounts db o).sum },
      List.mem_map_of_mem _ hsorted, rfl, rfl, rfl⟩
  · intro en hen
    rcases List.mem_map.mp hen with ⟨o, ho, rfl⟩
    have hgrp := mem_sortByLe.mp ho
    have hcond := List.of_mem_filter hgrp
    simp only [Bool.and_eq_true] at hcond
    refine ⟨o, List.mem_of_mem_filter hgrp, rfl, by simpa using hcond.1.2, hcond.1.1,
      ?_, rfl⟩
    have hne := hcond.2
    simp only [Bool.not_eq_true'] at hne
    intro hnil
    rw [show orderItemsOf db o.id =
      db.order_items.filter (fun it => it.order_id == o.id) from rfl] at hnil
    rw [hnil] at hne
    cases hne
  · rcases hi : req.include_incomes
    · simp only [report_cashflow, hi, Bool.false_eq_true, if_false, List.map_map]
      rw [add_zero]
    · simp only [report_cashflow, hi, if_true, List.map_map]
      rw [show ((fun x : CashTxn => x.amount) ∘ (fun i : IncomeRow =>
          ({ id := i.id, date := i.timestamp, amount := i.amount,
             note := i.note } : CashTxn))) =
          (fun i : IncomeRow => i.amount) from rfl]
      simp only [sum_map_sortByLe]
  · simp only [report_cashflow, List.map_map]
    rw [show ((fun x : CashTxn => x.amount) ∘ (fun x : ExpenseRow =>
        ({ id := x.id, date := x.timestamp, amount := x.amount,
           note := x.note } : CashTxn))) =
        (fun x : ExpenseRow => x.amount) from rfl]
    simp only [sum_map_sortByLe]
  · rcases hi : req.include_incomes
    · simp only [report_cashflow, hi, Bool.false_eq_true, if_false, List.map_map]
      rw [add_zero]
      rw [show ((fun x : CashTxn => x.amount) ∘ (fun x : ExpenseRow =>
          ({ id := x.id, date := x.timestamp, amount := x.amount,
             note := x.note } : CashTxn))) =
          (fun x : ExpenseRow => x.amount) from rfl]
      simp only [sum_map_sortByLe]
    · simp only [report_cashflow, hi, if_true, List.map_map]
      rw [show ((fun x : CashTxn => x.amount) ∘ (fun i : IncomeRow =>
          ({ id := i.id, date := i.timestamp, amount := i.amount,
             note := i.note } : CashTxn))) =
          (fun i : IncomeRow => i.amount) from rfl]
      rw [show ((fun x : CashTxn => x.amount) ∘ (fun x : ExpenseRow =>
          ({ id := x.id, date := x.timestamp, amount := x.amount,
             note := x.note } : CashTxn))) =
          (fun x : ExpenseRow => x.amount) from rfl]
      simp only [sum_map_sortByLe]

def dbC7w : Store :=
  { customers := [{ id := 1, name := "Alice" }],
    products := [{ id := 1, name := "Apples", unit := "weight", unit_price := 100 }],
    orders := [{ id := 1, customer_id := 1, delivery_date := ⟨2024, 1, 10⟩,
                 created_at := 0, applied_discount := 0, status := "delivered" }],
    order_items := [{ id := 1, order_id := 1, product_id := 1, quantity := 10,
                      unit_price := 100, lot_id := none }],
    lots := [],
    expenses := [{ id := 1, category_id := 1, timestamp := ⟨2024, 1, 20⟩,
                   amount := 300, note := none }],
    incomes := [{ id := 1, category_id := 1, timestamp := ⟨2024, 1, 5⟩,
                  amount := 200, note := none }] }

def reqC7w : CashflowRequest :=
  { start_date := ⟨2024, 1, 1⟩, end_date := ⟨2024, 1, 31⟩, include_incomes := true }

/-- C7 witness: delivered revenue 1000.00 plus an included income of
200.00 and an expense of 300.00 in-window yield entries_total 1200.00,
expenses_total 300.00 and net 900.00, as the amended theorem states. -/
theorem C7_witness :
    (report_cashflow dbC7w reqC7w).entries_total = 1200 ∧
    (report_cashflow dbC7w reqC7w).expenses_total = 300 ∧
    (report_cashflow dbC7w reqC7w).net = 900 := by
  refine ⟨?_, ?_, ?_⟩
  · rw [(C7_cashflow dbC7w reqC7w).2.2.1]
    with_unfolding_all rfl
  · rw [(C7_cashflow dbC7w reqC7w).2.2.2.1]
    with_unfolding_all rfl
  · rw [(C7_cashflow dbC7w reqC7w).2.2.2.2]
    with_unfolding_all rfl

-- ---------------------------------------------------------------------------
-- C8: total counts the filtered set, independent of pagination
-- ---------------------------------------------------------------------------

theorem list_orders_total (db : Store) (p : ListingQueryParams) :
    (list_orders db p).total = (ordersFiltered db p.filters).length := by
  unfold list_orders
  by_cases hp : (pagedOrders db p).isEmpty <;> simp [hp]

theorem pagedOrders_length_le (db : Store) (p : ListingQueryParams) :
    ∀ r ∈ pagedOrders db p, r ∈ ordersFiltered db p.filters :=
  fun _ h => mem_pagedOrders h

theorem pagedOrders_beyond (db : Store) (p : ListingQueryParams)
    (hs : 1 ≤ p.size) (hp : 1 ≤ p.page)
    (hb : (ordersFiltered db p.filters).length ≤ ((p.page - 1) * p.size).toNat) :
    pagedOrders db p = [] := by
  unfold pagedOrders
  have h0 : (0 : Int) ≤ p.size := le_trans (by norm_num) hs
  rw [if_pos h0]
  have hmax : max 1 p.page = p.page := max_eq_right hp
  rw [hmax]
  have hlen : (if (ordersSortClauses p.sort).isEmpty then ordersFiltered db p.filters
      else sortByLe (clausesLe ordersSortVal (ordersSortClauses p.sort))
        (ordersFiltered db p.filters)).length = (ordersFiltered db p.filters).length := by
    by_cases hc : (ordersSortClauses p.sort).isEmpty
    · rw [if_pos hc]
    · rw [if_neg hc, length_sortByLe]
  have hdrop : ((if (ordersSortClauses p.sort).isEmpty then ordersFiltered db p.filters
      else sortByLe (clausesLe ordersSortVal (ordersSortClauses p.sort))
        (ordersFiltered db p.filters)).drop ((p.page - 1) * p.size).toNat) = [] := by
    apply List.drop_eq_nil_of_le
    rw [hlen]
    exact hb
  rw [hdrop, List.take_nil]

theorem list_orders_beyond (db : Store) (p : ListingQueryParams)
    (hs : 1 ≤ p.size) (hp : 1 ≤ p.page)
    (hb : (list_orders db p).total ≤ ((p.page - 1) * p.size).toNat) :
    (list_orders db p).items = [] := by
  rw [list_orders_total] at hb
  have hpag : pagedOrders db p = [] := pagedOrders_beyond db p hs hp hb
  unfold list_orders
  rw [hpag]
  rfl

theorem pfs_total {α : Type} (rows : List α) (allowed : List (String × (α → SqlVal)))
    (p : PfsQueryParams) :
    (paginate_filter_sort rows allowed p).total =
    (rows.filter (fun r => p.filters.all (pfsKeep allowed r))).length := rfl

theorem pfs_beyond {α : Type} (rows : List α) (allowed : List (String × (α → SqlVal)))
    (p : PfsQueryParams) (hs : 1 ≤ p.size) (hp : 1 ≤ p.page)
    (hb : (paginate_filter_sort rows allowed p).total ≤ ((p.page - 1) * p.size).toNat) :
    (paginate_filter_sort rows allowed p).items = [] := by
  rw [pfs_total] at hb
  unfold paginate_filter_sort
  simp only []
  have hmaxp : max 1 p.page = p.page := max_eq_right hp
  have hmaxs : max 1 p.size = p.size := max_eq_right hs
  rw [hmaxp, hmaxs]
  have hlen : (if (p.sort.filterMap (fun s =>
      (lookupField allowed s.field).map (fun col => (col, s.order == "desc")))).isEmpty
      then rows.filter (fun r => p.filters.all (pfsKeep allowed r))
      else sortByLe (pfsClausesLe (p.sort.filterMap (fun s =>
        (lookupField allowed s.field).map (fun col => (col, s.order == "desc")))))
        (rows.filter (fun r => p.filters.all (pfsKeep allowed r)))).length =
      (rows.filter (fun r => p.filters.all (pfsKeep allowed r))).length := by
    by_cases hc : (p.sort.filterMap (fun s =>
        (lookupField allowed s.field).map (fun col => (col, s.order == "desc")))).isEmpty
    · rw [if_pos hc]
    · rw [if_neg hc, length_sortByLe]
  have hdrop : ((if (p.sort.filterMap (fun s =>
      (lookupField allowed s.field).map (fun col => (col, s.order == "desc")))).isEmpty
      then rows.filter (fun r => p.filters.all (pfsKeep allowed r))
      else sortByLe (pfsClausesLe (p.sort.filterMap (fun s =>
        (lookupField allowed s.field).map (fun col => (col, s.order == "desc")))))
        (rows.filter (fun r => p.filters.all (pfsKeep allowed r)))).drop
      ((p.page - 1) * p.size).toNat) = [] := by
    apply List.drop_eq_nil_of_le
    rw [hlen]
    exact hb
  rw [hdrop, List.take_nil]

/-- C8: for both list_orders and the generic paginate_filter_sort helper,
the returned total is the count of the rows matching the filters alone —
identical across calls differing only in page, size or sort — and a page
past the last filtered row returns an empty items list while total still
reports the full filtered count. -/
theorem C8_total_independent_of_pagination (α : Type) (db : Store)
    (p q : ListingQueryParams) (rows : List α)
    (allowed : List (String × (α → SqlVal))) (pp qq : PfsQueryParams) :
    ((list_orders db p).total = (ordersFiltered db p.filters).length) ∧
    (p.filters = q.filters → (list_orders db p).total = (list_orders db q).total) ∧
    (1 ≤ p.size → 1 ≤ p.page →
      (list_orders db p).total ≤ ((p.page - 1) * p.size).toNat →
      (list_orders db p).items = [] ∧
      (list_orders db p).total = (ordersFiltered db p.filters).length) ∧
    ((paginate_filter_sort rows allowed pp).total =
      (rows.filter (fun r => pp.filters.all (pfsKeep allowed r))).length) ∧
    (pp.filters = qq.filters →
      (paginate_filter_sort rows allowed pp).total =
      (paginate_filter_sort rows allowed qq).total) ∧
    (1 ≤ pp.size → 1 ≤ pp.page →
      (paginate_filter_sort rows allowed pp).total ≤ ((pp.page - 1) * pp.size).toNat →
      (paginate_filter_sort rows allowed pp).items = [] ∧
      (paginate_filter_sort rows allowed pp).total =
        (rows.filter (fun r => pp.filters.all (pfsKeep allowed r))).length) := by
  refine ⟨list_orders_total db p, ?_, ?_, pfs_total rows allowed pp, ?_, ?_⟩
  · intro hf
    rw [list_orders_total, list_orders_total, hf]
  · intro hs hp hb
    exact ⟨list_orders_beyond db p hs hp hb, list_orders_total db p⟩
  · intro hf
    rw [pfs_total, pfs_total, hf]
  · intro hs hp hb
    exact ⟨pfs_beyond rows allowed pp hs hp hb, pfs_total rows allowed pp⟩

/-- C8 witness: on the one-order store, page 5 of size 2 is past the end,
so items is empty while total matches the size-10 first page; the generic
helper on three rows behaves the same at page 5 of size 1. -/
theorem C8_witness :
    (list_orders dbC2 ⟨5, 2, [], []⟩).items = [] ∧
    (list_orders dbC2 ⟨5, 2, [], []⟩).total = (list_orders dbC2 ⟨1, 10, [], []⟩).total ∧
    (paginate_filter_sort [1, 2, 3] ([] : List (String × (Nat → SqlVal)))
      ⟨5, 1, [], []⟩).items = [] ∧
    (paginate_filter_sort [1, 2, 3] ([] : List (String × (Nat → SqlVal)))
      ⟨5, 1, [], []⟩).total = 3 := by
  have h := C8_total_independent_of_pagination Nat dbC2 ⟨5, 2, [], []⟩ ⟨1, 10, [], []⟩
    [1, 2, 3] [] ⟨5, 1, [], []⟩ ⟨1, 2, [], []⟩
  refine ⟨(h.2.2.1 (by decide) (by decide) ?_).1, h.2.1 rfl,
    (h.2.2.2.2.2 (by decide) (by decide) ?_).1, ?_⟩
  · rw [h.1]
    with_unfolding_all decide
  · rw [h.2.2.2.1]
    with_unfolding_all decide
  · rw [h.2.2.2.1]
    with_unfolding_all decide

-- ---------------------------------------------------------------------------
-- C9: semantics of size = 0 versus size < 0 in the listing endpoints
-- ---------------------------------------------------------------------------

/-- C9 counterexample: the claim says size = 0 applies no limit, but the
code guards pagination with size >= 0, so size = 0 issues LIMIT 0: on a
one-order store the filtered count is 1 yet no row is returned. -/
theorem C9_counterexample :
    (list_orders dbC2 ⟨1, 0, [], []⟩).total = 1 ∧
    (list_orders dbC2 ⟨1, 0, [], []⟩).items = [] := by
  with_unfolding_all decide

theorem pagedOrders_size_zero (db : Store) (p : ListingQueryParams)
    (h : p.size = 0) : pagedOrders db p = [] := by
  unfold pagedOrders
  rw [h]
  simp

theorem pagedOrders_size_neg (db : Store) (p : ListingQueryParams)
    (h : p.size < 0) :
    (pagedOrders db p).length = (ordersFiltered db p.filters).length := by
  unfold pagedOrders
  rw [if_neg (by omega : ¬ (0 : Int) ≤ p.size)]
  by_cases hc : (ordersSortClauses p.sort).isEmpty
  · rw [if_pos hc]
  · rw [if_neg hc, length_sortByLe]

theorem list_orders_size_zero (db : Store) (p : ListingQueryParams)
    (h : p.size = 0) : (list_orders db p).items = [] := by
  unfold list_orders
  rw [pagedOrders_size_zero db p h]
  rfl

theorem list_orders_size_neg (db : Store) (p : ListingQueryParams)
    (h : p.size < 0) :
    (list_orders db p).items.length = (list_orders db p).total := by
  unfold list_orders
  by_cases hp : (pagedOrders db p).isEmpty
  · rw [if_pos hp]
    rw [List.isEmpty_iff] at hp
    have hlen := pagedOrders_size_neg db p h
    rw [hp] at hlen
    exact hlen
  · rw [if_neg hp]
    simp only [List.length_map]
    exact pagedOrders_size_neg db p h

theorem pagedLots_size_zero (db : Store) (p : ListingQueryParams)
    (h : p.size = 0) : pagedLots db p = [] := by
  unfold pagedLots
  rw [h]
  simp

theorem pagedLots_size_neg (db : Store) (p : ListingQueryParams)
    (h : p.size < 0) :
    (pagedLots db p).length = (lotsFiltered db p.filters).length := by
  unfold pagedLots
  rw [if_neg (by omega : ¬ (0 : Int) ≤ p.size)]
  by_cases hc : (lotsSortClauses p.sort).isEmpty
  · rw [if_pos hc]
  · rw [if_neg hc, length_sortByLe]

theorem list_lots_size_zero (db : Store) (p : ListingQueryParams)
    (h : p.size = 0) : (list_lots db p).items = [] := by
  unfold list_lots
  rw [pagedLots_size_zero db p h]
  rfl

theorem list_lots_size_neg (db : Store) (p : ListingQueryParams)
    (h : p.size < 0) :
    (list_lots db p).items.length = (list_lots db p).total := by
  unfold list_lots
  by_cases hp : (pagedLots db p).isEmpty
  · rw [if_pos hp]
    rw [List.isEmpty_iff] at hp
    have hlen := pagedLots_size_neg db p h
    rw [hp] at hlen
    exact hlen
  · rw [if_neg hp]
    simp only [List.length_map]
    exact pagedLots_size_neg db p h

theorem pfs_size_floor {α : Type} (rows : List α)
    (allowed : List (String × (α → SqlVal))) (pp : PfsQueryParams)
    (h : pp.size < 1) :
    paginate_filter_sort rows allowed pp =
    paginate_filter_sort rows allowed ⟨pp.page, 1, pp.filters, pp.sort⟩ := by
  unfold paginate_filter_sort
  rw [max_eq_left (le_of_lt h)]
  rfl

/-- C9: in list_orders and list_lots a negative size skips LIMIT/OFFSET and
returns every filtered row (items count equals total), but size = 0 passes
the size >= 0 guard and issues LIMIT 0, returning no items — not all of
them as claimed; the generic paginate_filter_sort helper floors size to at
least 1, so any size below 1 behaves exactly as size = 1. -/
theorem C9_size_semantics {α : Type} (db : Store) (p : ListingQueryParams)
    (rows : List α) (allowed : List (String × (α → SqlVal)))
    (pp : PfsQueryParams) :
    (p.size < 0 → (list_orders db p).items.length = (list_orders db p).total ∧
      (list_lots db p).items.length = (list_lots db p).total) ∧
    (p.size = 0 → (list_orders db p).items = [] ∧ (list_lots db p).items = []) ∧
    (pp.size < 1 → paginate_filter_sort rows allowed pp =
      paginate_filter_sort rows allowed ⟨pp.page, 1, pp.filters, pp.sort⟩) := by
  refine ⟨fun h => ⟨list_orders_size_neg db p h, list_lots_size_neg db p h⟩,
    fun h => ⟨list_orders_size_zero db p h, list_lots_size_zero db p h⟩,
    pfs_size_floor rows allowed pp⟩

/-- C9 witness: on the one-order store, size -1 returns the single filtered
row while size 0 returns none; the generic helper treats size 0 as size 1. -/
theorem C9_witness :
    ((list_orders dbC2 ⟨1, -1, [], []⟩).items.length =
      (list_orders dbC2 ⟨1, -1, [], []⟩).total) ∧
    (list_orders dbC2 ⟨1, 0, [], []⟩).items = [] ∧
    (paginate_filter_sort [1, 2, 3] ([] : List (String × (Nat → SqlVal)))
        ⟨1, 0, [], []⟩ =
      paginate_filter_sort [1, 2, 3] ([] : List (String × (Nat → SqlVal)))
        ⟨1, 1, [], []⟩) :=
  ⟨((C9_size_semantics dbC2 ⟨1, -1, [], []⟩ [1, 2, 3] [] ⟨1, 0, [], []⟩).1
      (by decide)).1,
   ((C9_size_semantics dbC2 ⟨1, 0, [], []⟩ [1, 2, 3] [] ⟨1, 0, [], []⟩).2.1
      (by decide)).1,
   (C9_size_semantics dbC2 ⟨1, 0, [], []⟩ [1, 2, 3] [] ⟨1, 0, [], []⟩).2.2
      (by decide)⟩

-- ---------------------------------------------------------------------------
-- C10: the "never-matching" sentinel for unparsable date filters can match
-- ---------------------------------------------------------------------------

/-- A store whose one order is genuinely dated 1900-01-01, the sentinel the
code compares against when a date filter fails to parse. -/
def dbC10 : Store :=
  { customers := [{ id := 1, name := "Alice" }],
    products := [],
    orders := [{ id := 1, customer_id := 1, delivery_date := ⟨1900, 1, 1⟩,
                 created_at := 0, applied_discount := 0, status := "created" }],
    order_items := [], lots := [], expenses := [], incomes := [] }

set_option maxRecDepth 4000 in
/-- C10: an unparsable delivery_date_after value indeed does not raise, but
the substituted predicate is equality with date(1900, 1, 1) rather than a
never-matching one, so a store holding an order genuinely dated 1900-01-01
still returns that row: the filtered result set is not empty for every
store state, refuting the claimed fail-safe-to-empty behaviour. -/
theorem C10_sentinel_date_matches :
    fromisoformat "not-a-date" = none ∧
    (list_orders dbC10 ⟨1, 10, [("delivery_date_after", "not-a-date")], []⟩).total = 1 ∧
    (list_orders dbC10 ⟨1, 10, [("delivery_date_after", "not-a-date")], []⟩).items ≠ [] := by
  refine ⟨rfl, ?_, ?_⟩ <;> with_unfolding_all decide
